import Mathlib

/-!
Shallow embedding of the FutbolPorLey statistics normalization pipeline.

Python strings are modelled as `List Char`, Python numbers as `ℤ`/`ℚ`
(idealized exact arithmetic in place of IEEE doubles), Python `None` and
heterogeneous dict values as the inductive `PyVal`.  Fallible Python
operations (`int(...)`, `float(...)`, indexing) are modelled with `Option`.
-/

namespace FPL

/-- Characters stripped by Python `str.strip()` with no argument. -/
def isPySpace (c : Char) : Bool :=
  c = ' ' || c = '\t' || c = '\n' || c = '\r' || c = '\x0b' || c = '\x0c'

/-- Python `s.strip()`: remove leading and trailing whitespace. -/
def pyStrip (s : List Char) : List Char :=
  ((s.dropWhile isPySpace).reverse.dropWhile isPySpace).reverse

/-- Python `s.strip(chars)`: remove leading and trailing characters from `cs`. -/
def pyStripSet (cs : List Char) (s : List Char) : List Char :=
  ((s.dropWhile (· ∈ cs)).reverse.dropWhile (· ∈ cs)).reverse

/-- Python `s.rstrip(chars)`: remove trailing characters from `cs`. -/
def pyStripRightSet (cs : List Char) (s : List Char) : List Char :=
  (s.reverse.dropWhile (· ∈ cs)).reverse

/-- Python `s.split(sep)` for a single-character separator: splits at every
occurrence, keeping empty pieces. -/
def pySplit (sep : Char) : List Char → List (List Char)
  | [] => [[]]
  | c :: rest =>
    if c = sep then [] :: pySplit sep rest
    else
      match pySplit sep rest with
      | [] => [[c]]
      | g :: gs => (c :: g) :: gs

/-- Python `s.replace(',', '.')`. -/
def replaceComma (s : List Char) : List Char :=
  s.map (fun c => if c = ',' then '.' else c)

/-- The decimal digit character for `d < 10`. -/
def digitChar (d : ℕ) : Char := Char.ofNat (48 + d)

/-- Decimal digits of a natural number, most significant first, computed with
explicit fuel so that it reduces in the kernel.  Models Python `str(n)` for
`n : ℕ`. -/
def natDigitsF : ℕ → ℕ → List Char
  | 0, _ => []
  | fuel + 1, n =>
    if n < 10 then [digitChar n]
    else natDigitsF fuel (n / 10) ++ [digitChar (n % 10)]

/-- Python `str(n)` for a natural number. -/
def natRepr (n : ℕ) : List Char := natDigitsF (n + 1) n

/-- Python `str(z)` for an integer. -/
def intRepr (z : ℤ) : List Char :=
  if z < 0 then '-' :: natRepr z.natAbs else natRepr z.toNat

/-- Numeric value of a decimal digit character. -/
def digitVal (c : Char) : ℕ := c.toNat - 48

/-- Value of a string of decimal digits (the core of Python `int(s)`). -/
def digitsVal (s : List Char) : ℕ :=
  s.foldl (fun a c => 10 * a + digitVal c) 0

/-- Parse a non-empty all-digit string to a natural number; `none` otherwise. -/
def parseNat (s : List Char) : Option ℕ :=
  if s ≠ [] ∧ s.all Char.isDigit then some (digitsVal s) else none

/-- Python `int(s)` on a string: optional surrounding whitespace, optional
sign, then decimal digits.  (Underscore digit separators are not modelled.) -/
def pyParseInt (s : List Char) : Option ℤ :=
  match pyStrip s with
  | '-' :: rest => (parseNat rest).map (fun n => -(n : ℤ))
  | '+' :: rest => (parseNat rest).map (fun n => (n : ℤ))
  | t => (parseNat t).map (fun n => (n : ℤ))

/-- Split a list at the first character satisfying `p`; returns the part
before and, when found, the part after. -/
def splitFirst (p : Char → Bool) : List Char → List Char × Option (List Char)
  | [] => ([], none)
  | c :: rest =>
    if p c then ([], some rest)
    else
      match splitFirst p rest with
      | (a, b) => (c :: a, b)

/-- Mantissa of a Python float literal: `digits`, `digits.digits`,
`digits.`, or `.digits`. -/
def parseMantissa (s : List Char) : Option ℚ :=
  match splitFirst (· = '.') s with
  | (ip, none) => (parseNat ip).map (fun n => (n : ℚ))
  | (ip, some fp) =>
    if ip = [] ∧ fp = [] then none
    else if (ip = [] ∨ (ip.all Char.isDigit)) ∧ (fp = [] ∨ (fp.all Char.isDigit)) ∧
            (ip ≠ [] ∨ fp ≠ []) then
      some ((digitsVal ip : ℚ) + (digitsVal fp : ℚ) / (10 : ℚ) ^ fp.length)
    else none

/-- Exponent part of a Python float literal: optional sign, digits. -/
def parseExponent (s : List Char) : Option ℤ :=
  match s with
  | '-' :: rest => (parseNat rest).map (fun n => -(n : ℤ))
  | '+' :: rest => (parseNat rest).map (fun n => (n : ℤ))
  | t => (parseNat t).map (fun n => (n : ℤ))

/-- Unsigned part of a Python float literal: decimal mantissa with optional
`e`/`E` exponent. -/
def parseFloatCore (t : List Char) : Option ℚ :=
  match splitFirst (fun c => c = 'e' || c = 'E') t with
  | (mant, none) => parseMantissa mant
  | (mant, some es) =>
    match parseMantissa mant, parseExponent es with
    | some m, some e => some (m * (10 : ℚ) ^ e)
    | _, _ => none

/-- Python `float(s)`: surrounding whitespace, optional sign, decimal
mantissa, optional `e`/`E` exponent.  `inf`, `nan` and underscore separators
are outside the model (they do not occur in the stat formats handled here). -/
def parseFloat (s : List Char) : Option ℚ :=
  match pyStrip s with
  | '-' :: rest => (parseFloatCore rest).map (fun m => -m)
  | '+' :: rest => parseFloatCore rest
  | t => parseFloatCore t

/-- Round a rational to the nearest integer, ties to even (Python `round`). -/
def halfEvenZ (q : ℚ) : ℤ :=
  let f := ⌊q⌋
  let r := q - f
  if r < 1 / 2 then f
  else if 1 / 2 < r then f + 1
  else if f % 2 = 0 then f else f + 1

/-- Python `round(q, n)` (idealized: exact decimal half-even rounding). -/
def pyRound (q : ℚ) (n : ℕ) : ℚ :=
  (halfEvenZ (q * (10 : ℚ) ^ n) : ℚ) / (10 : ℚ) ^ n

/-- A Python value as it occurs in the stat dictionaries: `None`, a bool, an
int, a float, a string, or the `{successful, total, percentage}` dict
produced by the fraction parser (fields may hold `None`). -/
inductive PyVal
  | none
  | bool (b : Bool)
  | int (z : ℤ)
  | float (q : ℚ)
  | str (s : List Char)
  | frac (successful total : Option ℤ) (percentage : Option ℚ)
deriving DecidableEq, Repr

/-- `List Char` view of a string literal. -/
def strL (s : String) : List Char := s.data

/-- Python truthiness of a `PyVal` (`bool(value)`).  A fraction dict always
has three keys, hence is truthy. -/
def pyFalsy (v : PyVal) : Bool :=
  match v with
  | .none => true
  | .bool b => !b
  | .int z => z = 0
  | .float q => q = 0
  | .str s => s.isEmpty
  | .frac _ _ _ => false

/-- Python `int(value)` for a non-string `value` (`int()` of a float
truncates toward zero; of a bool gives 0/1; of `None`/dict raises, modelled
as `none`).  For strings it accepts only an integer literal. -/
def pyIntOfVal (v : PyVal) : Option ℤ :=
  match v with
  | .int z => some z
  | .float q => some (if 0 ≤ q then ⌊q⌋ else ⌈q⌉)
  | .bool b => some (if b then 1 else 0)
  | .str s => pyParseInt s
  | .none => Option.none
  | .frac _ _ _ => Option.none

/-! ## Numeric Normalizer: `_convert_to_numeric`
(identical copies in `helpers/convert_stats.py` and
`extractors/statistics_extractor.py`). -/

/-- Dispatch test for the `"Successful/Total (Percentage%)"` branch:
`'/' in value_str and '(' in value_str and value_str.endswith(')')`. -/
def fracShape (vs : List Char) : Bool :=
  decide ('/' ∈ vs) && decide ('(' ∈ vs) && decide (vs.getLast? = some ')')

/-- Dispatch test for the `"Percentage%"` branch: `value_str.endswith('%')`. -/
def pctShape (vs : List Char) : Bool :=
  vs.getLast? = some '%'

/-- String-level part of the fraction branch: split off the fraction part
and the percentage part, convert the fraction counts with `int(...)`.
`Option.none` models an exception escaping to the `except` handler. -/
def fracScan (vs : List Char) : Option (ℤ × ℤ × List Char) := do
  let parts := pySplit '(' vs
  let p0 ← parts.head?
  let p1 ← parts.get? 1
  let fractionPart := pyStrip p0
  let percentagePart := pyStripSet ['%', ' '] ((pySplit ')' p1).headD [])
  match pySplit '/' fractionPart with
  | [a, b] => do
    let successful ← pyParseInt a
    let total ← pyParseInt b
    pure (successful, total, percentagePart)
  | _ => Option.none

/-- Arithmetic part of the fraction branch: literal percentage from the
percentage part (`None` when that part is empty, exception—modelled as outer
`Option.none`—when it does not parse), recomputed from `successful/total`
when `total > 0` and the literal is absent or off by more than `0.005`. -/
def fracPercentage (successful total : ℤ) (percentagePart : List Char) :
    Option (Option ℚ) :=
  if percentagePart.isEmpty then
    some (if 0 < total then some (pyRound ((successful : ℚ) / (total : ℚ)) 4)
          else Option.none)
  else
    match parseFloat percentagePart with
    | Option.none => Option.none
    | some p =>
      let lit := pyRound (p / 100) 4
      if 0 < total then
        let calculated := pyRound ((successful : ℚ) / (total : ℚ)) 4
        some (some (if 1 / 200 < |lit - calculated| then calculated else lit))
      else some (some lit)

/-- The body of the fraction branch's `try` block.  `Option.none` models an
exception (`ValueError`/`IndexError`/`TypeError`/`ZeroDivisionError`)
escaping to the `except` handler. -/
def fracParseCore (vs : List Char) : Option PyVal := do
  let (successful, total, percentagePart) ← fracScan vs
  let perc ← fracPercentage successful total percentagePart
  pure (PyVal.frac (some successful) (some total) perc)

/-- `_convert_to_numeric` on a (stripped, non-empty) string. -/
def convertToNumericStr (s : List Char) : PyVal :=
  let vs := pyStrip s
  if vs.isEmpty then .none
  else if fracShape vs then
    (fracParseCore vs).getD (.frac Option.none Option.none Option.none)
  else if pctShape vs then
    match parseFloat (pyStripSet ['%', ' '] vs) with
    | some p => .float (pyRound (p / 100) 4)
    | Option.none => .none
  else
    match parseFloat (replaceComma vs) with
    | some q => if q.den = 1 then .int q.num else .float q
    | Option.none => .none

/-- `_convert_to_numeric` on any input value.  Non-string inputs go through
`str(value)` in the source; for ints and floats that round-trips to the same
number through the simple-numeric branch, for bools and dicts `float(...)`
raises and the function returns `None`. -/
def convertToNumeric (v : PyVal) : PyVal :=
  match v with
  | .none => .none
  | .str s => convertToNumericStr s
  | .int z => .int z
  | .float q => if q.den = 1 then .int q.num else .float q
  | .bool _ => .none
  | .frac _ _ _ => .none

/-! ## The canonical fraction-formatted string `"S/T (P%)"` -/

/-- The textual form `"S/T (P%)"`, with the percentage part given as a raw
character string `pstr`. -/
def fracInputStr (S T : ℕ) (pstr : List Char) : List Char :=
  (natRepr S ++ '/' :: natRepr T ++ [' ']) ++ '(' :: (pstr ++ ['%', ')'])

/-! ## Player stat formatting (`players_statistics_extractor.py`) -/

/-- `_calculate_percentage`: percentage as a rounded int, `0` when the
denominator is `0`. -/
def calcPercentage (n d : ℤ) : ℤ :=
  if d = 0 then 0 else halfEvenZ ((n : ℚ) / (d : ℚ) * 100)

/-- The f-string `f"{accurate}/{total} ({percentage}%)"` used by
`_format_stat_with_total_percentage` and by the duels block. -/
def formatFracStr (a t p : ℤ) : List Char :=
  (intRepr a ++ '/' :: intRepr t ++ [' ']) ++ '(' :: (intRepr p ++ ['%', ')'])

/-- `_format_stat_with_total_percentage`: reads the two raw components
(defaulting to `0`, also on `int(...)` failure) and formats them. -/
def formatStatWithTotalPercentage (accKey totKey : List Char)
    (raw : List Char → Option PyVal) : List Char :=
  let accurate : ℤ :=
    match raw accKey with
    | some v => (pyIntOfVal v).getD 0
    | Option.none => 0
  let total : ℤ :=
    match raw totKey with
    | some v => (pyIntOfVal v).getD 0
    | Option.none => 0
  formatFracStr accurate total (calcPercentage accurate total)

/-- Keys passed through unchanged by `_convert_stats_to_numeric`. -/
def skipKeys : List (List Char) :=
  [strL "player_id", strL "name", strL "short_name", strL "position",
   strL "jersey_number", strL "is_substitute"]

/-- One entry of `_convert_stats_to_numeric`: falsy values and `'N/A'`
become `0`; strings are parsed as `"X/Y (Z%)"` fractions (value `X/Y`),
`"X%"` percentages (value `X/100`), or plain floats; anything else is kept
unchanged. -/
def convEntry (k : List Char) (v : PyVal) : List Char × PyVal :=
  if k ∈ skipKeys then (k, v)
  else if pyFalsy v = true ∨ v = PyVal.str (strL "N/A") then (k, PyVal.int 0)
  else
    match v with
    | PyVal.str s =>
      if decide ('/' ∈ s) && decide ('(' ∈ s) then
        match (pySplit '/' s).get? 1 with
        | Option.none => (k, PyVal.int 0)
        | some p1 =>
          match parseFloat ((pySplit '/' s).headD []),
              parseFloat ((pySplit '(' p1).headD []) with
          | some nu, some de =>
            if de = 0 then (k, PyVal.int 0) else (k, PyVal.float (nu / de))
          | _, _ => (k, PyVal.int 0)
      else if s.getLast? = some '%' then
        match parseFloat (pyStripRightSet ['%'] s) with
        | some q => (k, PyVal.float (q / 100))
        | Option.none => (k, PyVal.int 0)
      else
        match parseFloat s with
        | some q => (k, PyVal.float q)
        | Option.none => (k, v)
    | _ => (k, v)

/-- `_convert_stats_to_numeric` over a player record (dict as assoc list). -/
def convertStatsToNumeric (entries : List (List Char × PyVal)) :
    List (List Char × PyVal) :=
  entries.map (fun kv => convEntry kv.1 kv.2)

/-! ## Aggregate Reconciler: team average rating -/

/-- `isinstance(rating_value, (int, float))` view of a rating value
(Python bools are ints). -/
def ratingNum (v : PyVal) : Option ℚ :=
  match v with
  | .int z => some ((z : ℚ))
  | .float q => some q
  | .bool b => some (if b then 1 else 0)
  | _ => Option.none

/-- The ratings collected during the player loop: numeric and `> 0`. -/
def collectPositiveRatings (vals : List PyVal) : List ℚ :=
  vals.filterMap (fun v =>
    match ratingNum v with
    | some q => if 0 < q then some q else Option.none
    | Option.none => Option.none)

/-- The team `sofascore_rating`: `round(sum/len, 2)` over the collected
ratings, `None` when none were collected. -/
def teamAverageRating (vals : List PyVal) : Option ℚ :=
  let rs := collectPositiveRatings vals
  if rs.isEmpty then Option.none
  else some (pyRound (rs.sum / (rs.length : ℚ)) 2)

/-- Average team rating as the spec words it: arithmetic mean, rounded to 2
decimals, over exactly the ratings strictly greater than 0 (zero and null
excluded from numerator and denominator); null when no rating is positive. -/
def specAverageRating (rs : List (Option ℚ)) : Option ℚ :=
  let pos := (rs.filterMap id).filter (fun q => decide (0 < q))
  if pos.isEmpty then Option.none
  else some (pyRound (pos.sum / (pos.length : ℚ)) 2)

/-! ## Ground-duels derivation (`_parse_player_lineup_data` duels block) -/

/-- The six raw per-player duel inputs read from `stats_raw` (`none` = key
absent). -/
structure DuelRaw where
  duelWon : Option PyVal
  duelLost : Option PyVal
  aerialWon : Option PyVal
  aerialLost : Option PyVal
  groundDuelWon : Option PyVal
  groundDuelTotal : Option PyVal

/-- `int(stats_raw.get(key, 0))` with the `except` fallback to `0`. -/
def coerceDuelCount (o : Option PyVal) : ℤ :=
  match o with
  | Option.none => 0
  | some v => (pyIntOfVal v).getD 0

/-- The direct `groundDuelWon`/`groundDuelTotal` reads: `None` when absent
or unparseable. -/
def coerceDirectCount (o : Option PyVal) : Option ℤ := o.bind pyIntOfVal

/-- The `"?/{ground_total_calc} (?%)"` placeholder for an inconsistent
derivation. -/
def unknownGroundStr (gt : ℤ) : List Char :=
  '?' :: '/' :: (intRepr gt ++ ' ' :: '(' :: '?' :: '%' :: [')'])

/-- The string stored under `'Ground duels (won)'`: the direct values when
both are present, otherwise the `duels − aerials` derivation guarded by the
sanity check `total ≥ won ∧ total ≥ 0`. -/
def groundDuelsWonStr (r : DuelRaw) : List Char :=
  let dw := coerceDuelCount r.duelWon
  let dl := coerceDuelCount r.duelLost
  let aw := coerceDuelCount r.aerialWon
  let al := coerceDuelCount r.aerialLost
  match coerceDirectCount r.groundDuelWon, coerceDirectCount r.groundDuelTotal with
  | some gw, some gt => formatFracStr gw gt (calcPercentage gw gt)
  | _, _ =>
    let gwc := dw - aw
    let gtc := (dw + dl) - (aw + al)
    if gwc ≤ gtc ∧ 0 ≤ gtc then formatFracStr gwc gtc (calcPercentage gwc gtc)
    else unknownGroundStr gtc

/-! ## Event Record Builder (`shots_extractor.py`, incident loop)

The storage collaborator is modelled as always accepting inserts (the claim
is about insert ordering and failure flagging, not about I/O failures); a
row trace stands in for the issued `INSERT` statements, and the fresh
`event_id` the base insert returns is a parameter. -/

/-- A player reference nested in an incident; `id` may be missing.  An
`Option PlayerRef` of `none` models the key being absent (or falsy). -/
structure PlayerRef where
  id : Option ℤ

/-- One entry of `footballPassingNetworkAction`. -/
structure NetAction where
  eventType : Option (List Char)
  bodyPart : Option (List Char)

/-- The fields of one incident object read by the loop. -/
structure Incident where
  incidentType : Option (List Char)
  time : Option ℤ
  isHome : Option Bool
  player : Option PlayerRef
  playerIn : Option PlayerRef
  playerOut : Option PlayerRef
  assist1 : Option PlayerRef
  manager : Bool
  incidentClass : Option (List Char)
  reason : Option (List Char)
  goalType : Option (List Char)
  rescinded : Bool
  actions : List NetAction

/-- The rows inserted by the incident loop. -/
inductive DBRow
  | base (matchId minute : ℤ) (eventType : Option (List Char)) (teamId : ℤ)
      (playerId : Option ℤ)
  | goalRow (eventId scoringPlayerId : ℤ) (assistPlayerId : Option ℤ)
      (goalType bodyPart : Option (List Char))
  | cardRow (eventId : ℤ) (cardType : List Char) (reason : Option (List Char))
      (isRescinded : Bool)
  | subRow (eventId playerInId playerOutId : ℤ)
  | varRow (eventId : ℤ) (decisionType : List Char)
      (decisionOutcome : Option (List Char))
deriving DecidableEq

/-- Python truthiness of an optional id (`if scoring_player_id:`). -/
def truthyId (o : Option ℤ) : Option ℤ :=
  match o with
  | some z => if z = 0 then Option.none else some z
  | Option.none => Option.none

/-- Python truthiness of an optional string. -/
def truthyStr (o : Option (List Char)) : Option (List Char) :=
  match o with
  | some s => if s.isEmpty then Option.none else some s
  | Option.none => Option.none

/-- `incident.get(key, {}).get('id')`. -/
def refId (o : Option PlayerRef) : Option ℤ := o.bind (fun p => p.id)

/-- The `footballPassingNetworkAction` scan for the goal body part. -/
def findBodyPart : List NetAction → Option (List Char)
  | [] => Option.none
  | a :: rest =>
    if a.eventType = some (strL "goal") ∧ (truthyStr a.bodyPart).isSome
    then a.bodyPart
    else findBodyPart rest

/-- The first, type-independent `player_id_base` guess: `player` if present,
else `playerIn`. -/
def basePlayerId0 (inc : Incident) : Option ℤ :=
  match inc.player with
  | some p => p.id
  | Option.none =>
    match inc.playerIn with
    | some p => p.id
    | Option.none => Option.none

/-- The `player_id_base` after the per-type reassignment block. -/
def basePlayerId (inc : Incident) : Option ℤ :=
  if inc.incidentType = some (strL "goal") ∨
      inc.incidentType = some (strL "card") ∨
      inc.incidentType = some (strL "missedPenalty") then
    match inc.player with
    | some p => p.id
    | Option.none => basePlayerId0 inc
  else if inc.incidentType = some (strL "substitution") then
    match inc.playerOut with
    | some p => p.id
    | Option.none => basePlayerId0 inc
  else if inc.incidentType = some (strL "varDecision") then
    match inc.player with
    | some p => p.id
    | Option.none => Option.none
  else basePlayerId0 inc

/-- One iteration of the incident loop: the rows inserted (in order) and the
value of the `success` flag contributed by this incident (`false` when the
incident was flagged as a failure). -/
def processIncident (matchId homeTeamId awayTeamId : ℤ) (inc : Incident)
    (eventId : ℤ) : List DBRow × Bool :=
  let ty := inc.incidentType
  if ty = some (strL "period") ∨ ty = some (strL "injuryTime") then ([], true)
  else if ty = some (strL "card") ∧ inc.manager = true then ([], true)
  else
    match inc.time, inc.isHome with
    | some m, some h =>
      let tid := if h then homeTeamId else awayTeamId
      let baseRow := DBRow.base matchId m ty tid (basePlayerId inc)
      if ty = some (strL "goal") then
        match truthyId (refId inc.player) with
        | some s =>
          ([baseRow, DBRow.goalRow eventId s (refId inc.assist1) inc.goalType
            (findBodyPart inc.actions)], true)
        | Option.none => ([baseRow], false)
      else if ty = some (strL "card") then
        match truthyId (refId inc.player), truthyStr inc.incidentClass with
        | some _, some c =>
          ([baseRow, DBRow.cardRow eventId c inc.reason inc.rescinded], true)
        | _, _ => ([baseRow], false)
      else if ty = some (strL "substitution") then
        match truthyId (refId inc.playerIn), truthyId (refId inc.playerOut) with
        | some i, some o => ([baseRow, DBRow.subRow eventId i o], true)
        | _, _ => ([baseRow], false)
      else if ty = some (strL "varDecision") then
        ([baseRow, DBRow.varRow eventId (strL "VAR decision") inc.incidentClass],
          true)
      else ([baseRow], true)
    | _, _ => ([], true)

/-! ## Team Stat Record Builder (`statistics_extractor.py`,
`_parse_statistics_data`) -/

/-- `STATS_NAME_MAP_API_TO_TEMP`: API stat names to temporary keys. -/
def STATS_NAME_MAP : List (List Char × List Char) :=
  [(strL "Ball possession", strL "possession_percentage"),
   (strL "Big chances", strL "big_chances"),
   (strL "Total shots", strL "total_shots"),
   (strL "Goalkeeper saves", strL "saves"),
   (strL "Total saves", strL "saves"),
   (strL "Corner kicks", strL "corners"),
   (strL "Fouls", strL "fouls"),
   (strL "Passes", strL "passes_complex"),
   (strL "Total tackles", strL "tackles_total_simple"),
   (strL "Free kicks", strL "free_kicks"),
   (strL "Yellow cards", strL "yellow_cards"),
   (strL "Red cards", strL "red_cards"),
   (strL "Shots on target", strL "shots_on_target"),
   (strL "Hit woodwork", strL "hit_woodwork"),
   (strL "Shots off target", strL "shots_off_target"),
   (strL "Blocked shots", strL "blocked_shots"),
   (strL "Shots inside box", strL "shots_inside_box"),
   (strL "Shots outside box", strL "shots_outside_box"),
   (strL "Big chances missed", strL "big_chances_missed"),
   (strL "Fouled in final third", strL "fouled_final_third"),
   (strL "Offsides", strL "offsides"),
   (strL "Accurate passes", strL "accurate_passes_percentage_complex"),
   (strL "Throw-ins", strL "throw_ins"),
   (strL "Final third entries", strL "final_third_entries"),
   (strL "Long balls", strL "long_balls_complex"),
   (strL "Crosses", strL "crosses_complex"),
   (strL "Duels", strL "duels_won_complex"),
   (strL "Dispossessed", strL "dispossessed"),
   (strL "Ground duels", strL "ground_duels_complex"),
   (strL "Aerial duels", strL "aerial_duels_complex"),
   (strL "Dribbles", strL "dribbles_complex"),
   (strL "Tackles won", strL "tackles_won_details"),
   (strL "Interceptions", strL "interceptions"),
   (strL "Clearances", strL "clearances"),
   (strL "Goal kicks", strL "goal_kicks")]

/-- `TEAM_STATS_DB_ORDER`: the 56 columns of `team_match_stats`, in insert
order. -/
def TEAM_STATS_DB_ORDER : List (List Char) :=
  [strL "match_id", strL "team_id", strL "is_home_team", strL "period",
   strL "formation", strL "average_team_rating",
   strL "total_team_market_value_eur",
   strL "possession_percentage", strL "big_chances", strL "total_shots",
   strL "saves", strL "corners", strL "fouls",
   strL "passes_successful", strL "passes_total", strL "passes_percentage",
   strL "tackles_successful", strL "tackles_total",
   strL "tackles_won_percentage",
   strL "free_kicks", strL "yellow_cards", strL "red_cards",
   strL "shots_on_target", strL "hit_woodwork",
   strL "shots_off_target", strL "blocked_shots", strL "shots_inside_box",
   strL "shots_outside_box",
   strL "big_chances_missed", strL "fouled_final_third", strL "offsides",
   strL "accurate_passes_percentage",
   strL "throw_ins", strL "final_third_entries",
   strL "long_balls_successful", strL "long_balls_total",
   strL "long_balls_percentage",
   strL "crosses_successful", strL "crosses_total", strL "crosses_percentage",
   strL "duels_won_successful", strL "duels_won_total",
   strL "duels_won_percentage",
   strL "dispossessed",
   strL "ground_duels_successful", strL "ground_duels_total",
   strL "ground_duels_percentage",
   strL "aerial_duels_successful", strL "aerial_duels_total",
   strL "aerial_duels_percentage",
   strL "dribbles_successful", strL "dribbles_total",
   strL "dribbles_percentage",
   strL "interceptions", strL "clearances", strL "goal_kicks"]

/-- One entry of `statisticsItems` (fields read by the first pass; `none` =
key absent or JSON null). -/
structure StatItem where
  name : Option (List Char)
  home : Option PyVal
  away : Option PyVal
  homeValue : Option PyVal
  homeTotal : Option PyVal
  awayValue : Option PyVal
  awayTotal : Option PyVal

/-- One entry of `groups`. -/
structure StatGroup where
  statisticsItems : List StatItem

/-- One entry of the statistics list (`period` plus its groups). -/
structure PeriodStats where
  period : Option (List Char)
  groups : List StatGroup

/-- The per-(period, side) intermediate dict. -/
abbrev StatMap := List Char → Option PyVal

def emptyStatMap : StatMap := fun _ => Option.none

def updateStatMap (m : StatMap) (k : List Char) (v : PyVal) : StatMap :=
  fun q => if q = k then some v else m q

/-- Truncation toward zero (Python `int(float)`). -/
def truncQ (q : ℚ) : ℤ := if 0 ≤ q then ⌊q⌋ else ⌈q⌉

/-- `_safe_to_int`: `int(float(str(value).replace(',', '.')))` with `None`
on failure. -/
def safeToInt (o : Option PyVal) : Option ℤ :=
  match o with
  | Option.none => Option.none
  | some v =>
    match v with
    | PyVal.int z => some z
    | PyVal.float q => some (truncQ q)
    | PyVal.str s => (parseFloat (replaceComma s)).map truncQ
    | _ => Option.none

/-- The special `'Tackles won'` handling: successful/total live in the
side-specific `Value`/`Total` fields; the percentage is recomputed from the
`int(...)` values when `total > 0`. -/
def tacklesWonDetails (item : StatItem) (isHome : Bool) : PyVal :=
  let succ := if isHome then item.homeValue else item.awayValue
  let total := if isHome then item.homeTotal else item.awayTotal
  let pct : Option ℚ :=
    match total, succ with
    | some tv, some sv =>
      match pyIntOfVal tv, pyIntOfVal sv with
      | some ti, some si =>
        if 0 < ti then some (pyRound ((si : ℚ) / (ti : ℚ)) 4) else Option.none
      | _, _ => Option.none
    | _, _ => Option.none
  PyVal.frac (safeToInt succ) (safeToInt total) pct

/-- The converted value stored for one item and side in the first pass. -/
def convertedItemValue (item : StatItem) (tkey : List Char) (isHome : Bool) :
    PyVal :=
  if tkey = strL "tackles_won_details" then tacklesWonDetails item isHome
  else
    match (if isHome then item.home else item.away) with
    | some v => convertToNumeric v
    | Option.none => PyVal.none

/-- `STATS_NAME_MAP_API_TO_TEMP.get(stat_name_api)`. -/
def lookupNameMap (name : Option (List Char)) : Option (List Char) :=
  match name with
  | Option.none => Option.none
  | some n => (STATS_NAME_MAP.find? (fun kv => decide (kv.1 = n))).map
      (fun kv => kv.2)

/-- The two per-side dicts of one period. -/
structure TempTeams where
  home : StatMap
  away : StatMap

def foldItem (tt : TempTeams) (item : StatItem) : TempTeams :=
  match lookupNameMap item.name with
  | Option.none => tt
  | some tkey =>
    { home := updateStatMap tt.home tkey (convertedItemValue item tkey true),
      away := updateStatMap tt.away tkey (convertedItemValue item tkey false) }

def foldGroup (tt : TempTeams) (g : StatGroup) : TempTeams :=
  g.statisticsItems.foldl foldItem tt

def foldGroups (tt : TempTeams) (gs : List StatGroup) : TempTeams :=
  gs.foldl foldGroup tt

/-- `temp_stats_data`, initialized for the three known periods. -/
structure TempData where
  pAll : TempTeams
  pFst : TempTeams
  pSnd : TempTeams

def initTempData : TempData :=
  ⟨⟨emptyStatMap, emptyStatMap⟩, ⟨emptyStatMap, emptyStatMap⟩,
    ⟨emptyStatMap, emptyStatMap⟩⟩

/-- First pass over one period object; unknown and missing period codes are
skipped. -/
def foldPeriodObj (td : TempData) (obj : PeriodStats) : TempData :=
  match obj.period with
  | Option.none => td
  | some pc =>
    if pc = strL "ALL" then { td with pAll := foldGroups td.pAll obj.groups }
    else if pc = strL "1ST" then { td with pFst := foldGroups td.pFst obj.groups }
    else if pc = strL "2ND" then { td with pSnd := foldGroups td.pSnd obj.groups }
    else td

/-- `final_stats_map`: every key starts as `None`. -/
abbrev FinalMap := List Char → PyVal

def setF (m : FinalMap) (k : List Char) (v : PyVal) : FinalMap :=
  fun q => if q = k then v else m q

def isFracVal : PyVal → Bool
  | .frac _ _ _ => true
  | _ => false

def isNumberVal : PyVal → Bool
  | .int _ => true
  | .float _ => true
  | .bool _ => true
  | _ => false

/-- `isinstance(v, float) and v <= 1.0`. -/
def isFloatLe1 : PyVal → Bool
  | .float q => decide (q ≤ 1)
  | _ => false

def optIntVal (o : Option ℤ) : PyVal :=
  match o with
  | some z => .int z
  | Option.none => .none

def optRatVal (o : Option ℚ) : PyVal :=
  match o with
  | some q => .float q
  | Option.none => .none

/-- The simple (temp key, db column) pairs of the second pass. -/
def SIMPLE_STAT_COLS : List (List Char × List Char) :=
  [(strL "possession_percentage", strL "possession_percentage"),
   (strL "big_chances", strL "big_chances"),
   (strL "total_shots", strL "total_shots"),
   (strL "saves", strL "saves"),
   (strL "corners", strL "corners"),
   (strL "fouls", strL "fouls"),
   (strL "free_kicks", strL "free_kicks"),
   (strL "yellow_cards", strL "yellow_cards"),
   (strL "red_cards", strL "red_cards"),
   (strL "shots_on_target", strL "shots_on_target"),
   (strL "hit_woodwork", strL "hit_woodwork"),
   (strL "shots_off_target", strL "shots_off_target"),
   (strL "blocked_shots", strL "blocked_shots"),
   (strL "shots_inside_box", strL "shots_inside_box"),
   (strL "shots_outside_box", strL "shots_outside_box"),
   (strL "big_chances_missed", strL "big_chances_missed"),
   (strL "fouled_final_third", strL "fouled_final_third"),
   (strL "offsides", strL "offsides"),
   (strL "throw_ins", strL "throw_ins"),
   (strL "final_third_entries", strL "final_third_entries"),
   (strL "dispossessed", strL "dispossessed"),
   (strL "interceptions", strL "interceptions"),
   (strL "clearances", strL "clearances"),
   (strL "goal_kicks", strL "goal_kicks"),
   (strL "tackles_total_simple", strL "tackles_total")]

/-- Simple mappings: copy through (nulling a dict with a warning). -/
def applySimple (stats : StatMap) (fm : FinalMap) : FinalMap :=
  SIMPLE_STAT_COLS.foldl (fun fm p =>
    match stats p.1 with
    | Option.none => fm
    | some v =>
      if isFracVal v then setF fm p.2 PyVal.none
      else setF fm p.2 v) fm

/-- The composite (complex key, successful, total, percentage) tuples. -/
def COMPLEX_STAT_COLS :
    List (List Char × List Char × List Char × List Char) :=
  [(strL "passes_complex", strL "passes_successful", strL "passes_total",
    strL "passes_percentage"),
   (strL "long_balls_complex", strL "long_balls_successful",
    strL "long_balls_total", strL "long_balls_percentage"),
   (strL "crosses_complex", strL "crosses_successful", strL "crosses_total",
    strL "crosses_percentage"),
   (strL "duels_won_complex", strL "duels_won_successful",
    strL "duels_won_total", strL "duels_won_percentage"),
   (strL "ground_duels_complex", strL "ground_duels_successful",
    strL "ground_duels_total", strL "ground_duels_percentage"),
   (strL "aerial_duels_complex", strL "aerial_duels_successful",
    strL "aerial_duels_total", strL "aerial_duels_percentage"),
   (strL "dribbles_complex", strL "dribbles_successful",
    strL "dribbles_total", strL "dribbles_percentage"),
   (strL "tackles_complex", strL "tackles_successful", strL "tackles_total",
    strL "tackles_won_percentage")]

/-- One composite mapping: decompose a fraction record into three columns; a
bare number goes to the total column, except a float `≤ 1.0` under
`'Duels'`, which is taken as the percentage. -/
def applyComplexOne (stats : StatMap) (fm : FinalMap)
    (t4 : List Char × List Char × List Char × List Char) : FinalMap :=
  match (stats t4.1).getD PyVal.none with
  | PyVal.frac su tot pct =>
    setF (setF (setF fm t4.2.1 (optIntVal su)) t4.2.2.1 (optIntVal tot))
      t4.2.2.2 (optRatVal pct)
  | v =>
    if isNumberVal v then
      if t4.1 = strL "duels_won_complex" ∧ isFloatLe1 v = true
      then setF fm t4.2.2.2 v
      else setF fm t4.2.2.1 v
    else fm

def applyComplex (stats : StatMap) (fm : FinalMap) : FinalMap :=
  COMPLEX_STAT_COLS.foldl (applyComplexOne stats) fm

/-- `'Accurate passes'` reconciliation.  (The keys are always present in
`final_stats_map`, so the `not in` disjuncts of the source reduce to the
`is None` tests.) -/
def applyAccuratePasses (stats : StatMap) (fm : FinalMap) : FinalMap :=
  match (stats (strL "accurate_passes_percentage_complex")).getD PyVal.none with
  | PyVal.frac su tot pct =>
    let fm1 := setF fm (strL "accurate_passes_percentage") (optRatVal pct)
    let fm2 :=
      if fm1 (strL "passes_successful") = PyVal.none
      then setF fm1 (strL "passes_successful") (optIntVal su) else fm1
    if fm2 (strL "passes_total") = PyVal.none
    then setF fm2 (strL "passes_total") (optIntVal tot) else fm2
  | v =>
    if isNumberVal v then setF fm (strL "accurate_passes_percentage") v
    else
      match stats (strL "passes_complex") with
      | some (PyVal.frac _ _ pct) =>
        setF fm (strL "accurate_passes_percentage") (optRatVal pct)
      | _ => fm

/-- Tackles from `'tackles_won_details'`, with the
`'tackles_total_simple'` fallback. -/
def applyTackles (stats : StatMap) (fm : FinalMap) : FinalMap :=
  match (stats (strL "tackles_won_details")).getD PyVal.none with
  | PyVal.frac su tot pct =>
    let fm1 := setF fm (strL "tackles_successful") (optIntVal su)
    let fm2 := setF fm1 (strL "tackles_total")
      (match tot with
       | some z => PyVal.int z
       | Option.none => (stats (strL "tackles_total_simple")).getD PyVal.none)
    setF fm2 (strL "tackles_won_percentage") (optRatVal pct)
  | _ =>
    setF fm (strL "tackles_total")
      ((stats (strL "tackles_total_simple")).getD PyVal.none)

/-- The name substrings that make a `None` column default to `0`. -/
def ZERO_DEFAULT_SUBSTRINGS : List (List Char) :=
  [strL "_successful", strL "_total", strL "_cards", strL "_kicks",
   strL "shots_", strL "chances", strL "fouls", strL "corners", strL "saves",
   strL "offsides", strL "throw_ins", strL "entries", strL "dispossessed",
   strL "interceptions", strL "clearances"]

/-- Whether `needle` is a prefix-at-head of `hay`. -/
def headMatches : List Char → List Char → Bool
  | [], _ => true
  | _ :: _, [] => false
  | a :: xs, b :: ys => a = b && headMatches xs ys

/-- Python `needle in hay` (substring containment). -/
def containsSub (needle : List Char) : List Char → Bool
  | [] => headMatches needle []
  | c :: rest => headMatches needle (c :: rest) || containsSub needle rest

/-- `any(k in key for k in [...])`. -/
def defaultsToZero (k : List Char) : Bool :=
  ZERO_DEFAULT_SUBSTRINGS.any (fun sub => containsSub sub k)

/-- Second pass for one (team, period): populate `final_stats_map` and emit
the 56-cell row in `TEAM_STATS_DB_ORDER`, defaulting `None` cells to `0`
when the column name matches the integer-column heuristic. -/
def buildRow (matchId teamId : ℤ) (isHome : Bool) (pcode : List Char)
    (stats : StatMap) : List PyVal :=
  let fm0 : FinalMap := fun _ => PyVal.none
  let fm1 := setF (setF (setF (setF fm0 (strL "match_id") (PyVal.int matchId))
    (strL "team_id") (PyVal.int teamId))
    (strL "is_home_team") (PyVal.bool isHome))
    (strL "period") (PyVal.str pcode)
  let fm2 := applySimple stats fm1
  let fm3 := applyComplex stats fm2
  let fm4 := applyAccuratePasses stats fm3
  let fm5 := applyTackles stats fm4
  TEAM_STATS_DB_ORDER.map (fun k =>
    if fm5 k = PyVal.none ∧ defaultsToZero k = true then PyVal.int 0 else fm5 k)

/-- The final length-56 validation: a wrong-width row is rejected (logged),
not appended. -/
def rowChecked (row : List PyVal) : List (List PyVal) :=
  if row.length = 56 then [row] else []

/-- `_parse_statistics_data`: both passes, producing the batch of row
tuples (period order ALL, 1ST, 2ND; home before away). -/
def parseStatisticsData (stats : List PeriodStats)
    (matchId homeTeamId awayTeamId : ℤ) : List (List PyVal) :=
  let td := stats.foldl foldPeriodObj initTempData
  (rowChecked (buildRow matchId homeTeamId true (strL "ALL") td.pAll.home) ++
   rowChecked (buildRow matchId awayTeamId false (strL "ALL") td.pAll.away)) ++
  ((rowChecked (buildRow matchId homeTeamId true (strL "1ST") td.pFst.home) ++
    rowChecked (buildRow matchId awayTeamId false (strL "1ST") td.pFst.away)) ++
   (rowChecked (buildRow matchId homeTeamId true (strL "2ND") td.pSnd.home) ++
    rowChecked (buildRow matchId awayTeamId false (strL "2ND") td.pSnd.away)))

/-! ## Lemmas about digits, `str`/`int` round trips, strip and split -/

theorem digitChar_isDigit {d : ℕ} (h : d < 10) : (digitChar d).isDigit = true := by
  interval_cases d <;> decide

theorem digitVal_digitChar {d : ℕ} (h : d < 10) : digitVal (digitChar d) = d := by
  interval_cases d <;> decide

theorem digitsVal_append (xs : List Char) (c : Char) :
    digitsVal (xs ++ [c]) = 10 * digitsVal xs + digitVal c := by
  simp [digitsVal, List.foldl_append]

theorem natDigitsF_spec :
    ∀ fuel n, n < fuel →
      natDigitsF fuel n ≠ [] ∧ (natDigitsF fuel n).all Char.isDigit = true ∧
        digitsVal (natDigitsF fuel n) = n := by
  intro fuel
  induction fuel with
  | zero => intro n h; omega
  | succ f ih =>
    intro n h
    by_cases h10 : n < 10
    · refine ⟨by simp [natDigitsF, h10], ?_, ?_⟩
      · simp [natDigitsF, h10, digitChar_isDigit h10]
      · simp [natDigitsF, h10, digitsVal, digitVal_digitChar h10]
    · have hn1 : 1 ≤ n := by omega
      have hdiv : n / 10 < f := by
        have := Nat.div_lt_self (by omega : 0 < n) (by omega : 1 < 10)
        omega
      obtain ⟨ihne, ihall, ihval⟩ := ih (n / 10) hdiv
      have hmod : n % 10 < 10 := Nat.mod_lt _ (by omega)
      refine ⟨by simp [natDigitsF, h10, ihne], ?_, ?_⟩
      · simp only [natDigitsF, if_neg h10, List.all_append, ihall, Bool.true_and,
          List.all_cons, List.all_nil]
        simp [digitChar_isDigit hmod]
      · simp only [natDigitsF, if_neg h10, digitsVal_append, ihval,
          digitVal_digitChar hmod]
        omega

theorem natRepr_ne_nil (n : ℕ) : natRepr n ≠ [] :=
  (natDigitsF_spec (n + 1) n (Nat.lt_succ_self n)).1

theorem natRepr_all_digit (n : ℕ) : (natRepr n).all Char.isDigit = true :=
  (natDigitsF_spec (n + 1) n (Nat.lt_succ_self n)).2.1

theorem digitsVal_natRepr (n : ℕ) : digitsVal (natRepr n) = n :=
  (natDigitsF_spec (n + 1) n (Nat.lt_succ_self n)).2.2

theorem parseNat_natRepr (n : ℕ) : parseNat (natRepr n) = some n := by
  unfold parseNat
  rw [if_pos ⟨natRepr_ne_nil n, natRepr_all_digit n⟩, digitsVal_natRepr]

theorem mem_natRepr_isDigit {c : Char} {n : ℕ} (h : c ∈ natRepr n) :
    c.isDigit = true :=
  (List.all_eq_true.mp (natRepr_all_digit n)) c h

theorem not_mem_natRepr {c : Char} (hc : c.isDigit = false) (n : ℕ) :
    c ∉ natRepr n := fun h => by
  rw [mem_natRepr_isDigit h] at hc
  exact Bool.noConfusion hc

theorem mem_intRepr {c : Char} {z : ℤ} (h : c ∈ intRepr z) :
    c = '-' ∨ c.isDigit = true := by
  unfold intRepr at h
  by_cases hz : z < 0
  · rw [if_pos hz] at h
    rcases List.mem_cons.mp h with h | h
    · exact Or.inl h
    · exact Or.inr (mem_natRepr_isDigit h)
  · rw [if_neg hz] at h
    exact Or.inr (mem_natRepr_isDigit h)

theorem not_mem_intRepr {c : Char} (hc : c.isDigit = false) (hm : c ≠ '-')
    (z : ℤ) : c ∉ intRepr z := fun h => by
  rcases mem_intRepr h with h1 | h1
  · exact hm h1
  · rw [h1] at hc; exact Bool.noConfusion hc

theorem isPySpace_eq_false_of_isDigit {c : Char} (h : c.isDigit = true) :
    isPySpace c = false := by
  by_contra hcon
  have hsp : isPySpace c = true := by
    cases hx : isPySpace c
    · exact absurd hx hcon
    · rfl
  simp only [isPySpace, Bool.or_eq_true, decide_eq_true_eq] at hsp
  rcases hsp with ((((h1 | h1) | h1) | h1) | h1) | h1 <;> (subst h1; simp at h)

theorem natRepr_no_space (n : ℕ) : ∀ c ∈ natRepr n, isPySpace c = false :=
  fun _ hc => isPySpace_eq_false_of_isDigit (mem_natRepr_isDigit hc)

theorem intRepr_no_space (z : ℤ) : ∀ c ∈ intRepr z, isPySpace c = false := by
  intro c hc
  rcases mem_intRepr hc with h | h
  · subst h; decide
  · exact isPySpace_eq_false_of_isDigit h

theorem dropWhile_eq_self_of_forall {p : Char → Bool} {s : List Char}
    (h : ∀ c ∈ s, p c = false) : s.dropWhile p = s := by
  induction s with
  | nil => rfl
  | cons c t ih =>
    have hc := h c (List.mem_cons_self c t)
    simp [List.dropWhile, hc, ih (fun d hd => h d (List.mem_cons_of_mem c hd))]

theorem pyStrip_no_space {s : List Char} (h : ∀ c ∈ s, isPySpace c = false) :
    pyStrip s = s := by
  unfold pyStrip
  have hd1 : s.dropWhile isPySpace = s := dropWhile_eq_self_of_forall h
  rw [hd1]
  have hd2 : s.reverse.dropWhile isPySpace = s.reverse :=
    dropWhile_eq_self_of_forall (fun c hc => h c (List.mem_reverse.mp hc))
  rw [hd2, List.reverse_reverse]

theorem pyStrip_append_space {s : List Char}
    (h : ∀ c ∈ s, isPySpace c = false) : pyStrip (s ++ [' ']) = s := by
  unfold pyStrip
  cases s with
  | nil => decide
  | cons a t =>
    have hd1 : ((a :: t) ++ [' ']).dropWhile isPySpace = (a :: t) ++ [' '] := by
      have ha := h a (List.mem_cons_self a t)
      simp [List.dropWhile, ha]
    rw [hd1]
    have hrev : ((a :: t) ++ [' ']).reverse = ' ' :: (a :: t).reverse := by simp
    rw [hrev]
    have hsp : isPySpace ' ' = true := by decide
    have hd2 : (' ' :: (a :: t).reverse).dropWhile isPySpace
        = (a :: t).reverse.dropWhile isPySpace := by
      simp [List.dropWhile, hsp]
    rw [hd2, dropWhile_eq_self_of_forall
      (fun c hc => h c (List.mem_reverse.mp hc)), List.reverse_reverse]

theorem pyStripSet_no_mem {cs s : List Char} (h : ∀ d ∈ s, d ∉ cs) :
    pyStripSet cs s = s := by
  unfold pyStripSet
  have hd1 : s.dropWhile (fun c => decide (c ∈ cs)) = s :=
    dropWhile_eq_self_of_forall (fun c hc => decide_eq_false (h c hc))
  rw [hd1]
  have hd2 : s.reverse.dropWhile (fun c => decide (c ∈ cs)) = s.reverse :=
    dropWhile_eq_self_of_forall
      (fun c hc => decide_eq_false (h c (List.mem_reverse.mp hc)))
  rw [hd2, List.reverse_reverse]

theorem pyStripSet_append_mem {cs s : List Char} {c : Char} (hc : c ∈ cs)
    (h : ∀ d ∈ s, d ∉ cs) : pyStripSet cs (s ++ [c]) = s := by
  unfold pyStripSet
  cases s with
  | nil =>
    simp [List.dropWhile, decide_eq_true hc]
  | cons a t =>
    have ha : decide (a ∈ cs) = false := decide_eq_false (h a (List.mem_cons_self a t))
    have hd1 : ((a :: t) ++ [c]).dropWhile (fun d => decide (d ∈ cs))
        = (a :: t) ++ [c] := by
      simp only [List.cons_append, List.dropWhile, ha]
      rfl
    rw [hd1]
    have hrev : ((a :: t) ++ [c]).reverse = c :: (a :: t).reverse := by simp
    rw [hrev]
    have hd2 : (c :: (a :: t).reverse).dropWhile (fun d => decide (d ∈ cs))
        = (a :: t).reverse.dropWhile (fun d => decide (d ∈ cs)) := by
      simp [List.dropWhile, decide_eq_true hc]
    rw [hd2, dropWhile_eq_self_of_forall
      (fun d hd => decide_eq_false (h d (List.mem_reverse.mp hd))),
      List.reverse_reverse]

theorem pySplit_of_not_mem {sep : Char} {s : List Char} (h : sep ∉ s) :
    pySplit sep s = [s] := by
  induction s with
  | nil => rfl
  | cons c t ih =>
    have hcs : ¬c = sep := fun e => h (e ▸ List.mem_cons_self c t)
    have hts : sep ∉ t := fun e => h (List.mem_cons_of_mem c e)
    simp [pySplit, hcs, ih hts]

theorem pySplit_append {sep : Char} {xs ys : List Char} (h : sep ∉ xs) :
    pySplit sep (xs ++ sep :: ys) = xs :: pySplit sep ys := by
  induction xs with
  | nil => simp [pySplit]
  | cons c t ih =>
    have hcs : ¬c = sep := fun e => h (e ▸ List.mem_cons_self c t)
    have hts : sep ∉ t := fun e => h (List.mem_cons_of_mem c e)
    simp only [List.cons_append, pySplit, hcs, if_false]
    rw [show t.append (sep :: ys) = t ++ sep :: ys from rfl, ih hts]

theorem pyParseInt_digits {s : List Char} (hne : s ≠ [])
    (hall : s.all Char.isDigit = true) :
    pyParseInt s = some ((digitsVal s : ℤ)) := by
  have hnospace : ∀ c ∈ s, isPySpace c = false := fun c hc =>
    isPySpace_eq_false_of_isDigit ((List.all_eq_true.mp hall) c hc)
  rcases s with _ | ⟨a, t⟩
  · exact absurd rfl hne
  · have hadig : a.isDigit = true := (List.all_eq_true.mp hall) a (List.mem_cons_self a t)
    unfold pyParseInt
    rw [pyStrip_no_space hnospace]
    split
    · rename_i rest heq
      rw [List.cons.injEq] at heq
      rw [heq.1] at hadig
      exact absurd hadig (by decide)
    · rename_i rest heq
      rw [List.cons.injEq] at heq
      rw [heq.1] at hadig
      exact absurd hadig (by decide)
    · unfold parseNat
      rw [if_pos ⟨hne, hall⟩]
      rfl

theorem pyParseInt_natRepr (n : ℕ) : pyParseInt (natRepr n) = some ((n : ℤ)) := by
  rw [pyParseInt_digits (natRepr_ne_nil n) (natRepr_all_digit n), digitsVal_natRepr]

theorem pyParseInt_intRepr (z : ℤ) : pyParseInt (intRepr z) = some z := by
  unfold intRepr
  by_cases hz : z < 0
  · rw [if_pos hz]
    have hnospace : ∀ c ∈ '-' :: natRepr z.natAbs, isPySpace c = false := by
      intro c hc
      rcases List.mem_cons.mp hc with h | h
      · subst h; decide
      · exact natRepr_no_space _ c h
    unfold pyParseInt
    rw [pyStrip_no_space hnospace]
    have habs : ((z.natAbs : ℤ)) = -z := by
      rw [Int.natCast_natAbs]
      exact abs_of_neg hz
    simp [parseNat_natRepr, habs]
  · rw [if_neg hz]
    rw [pyParseInt_natRepr]
    congr 1
    omega

theorem splitFirst_of_all_false {p : Char → Bool} {s : List Char}
    (h : ∀ c ∈ s, p c = false) : splitFirst p s = (s, Option.none) := by
  induction s with
  | nil => rfl
  | cons c t ih =>
    have hc := h c (List.mem_cons_self c t)
    simp [splitFirst, hc, ih (fun d hd => h d (List.mem_cons_of_mem c hd))]

theorem parseMantissa_digits {s : List Char} (hne : s ≠ [])
    (hall : s.all Char.isDigit = true) :
    parseMantissa s = some ((digitsVal s : ℚ)) := by
  have hnodot : ∀ c ∈ s, (decide (c = '.')) = false := by
    intro c hc
    have hd := (List.all_eq_true.mp hall) c hc
    have h1 : ¬(c = '.') := fun e => by subst e; simp at hd
    exact decide_eq_false h1
  unfold parseMantissa
  rw [splitFirst_of_all_false hnodot]
  simp [parseNat, hne, hall]

theorem parseFloatCore_digits {s : List Char} (hne : s ≠ [])
    (hall : s.all Char.isDigit = true) :
    parseFloatCore s = some ((digitsVal s : ℚ)) := by
  have hnoexp : ∀ c ∈ s, (fun c => c = 'e' || c = 'E') c = false := by
    intro c hc
    have hd := (List.all_eq_true.mp hall) c hc
    have h1 : ¬(c = 'e') := fun e => by subst e; simp at hd
    have h2 : ¬(c = 'E') := fun e => by subst e; simp at hd
    simp [h1, h2]
  unfold parseFloatCore
  rw [splitFirst_of_all_false hnoexp]
  exact parseMantissa_digits hne hall

theorem parseFloat_digits {s : List Char} (hne : s ≠ [])
    (hall : s.all Char.isDigit = true) :
    parseFloat s = some ((digitsVal s : ℚ)) := by
  have hnospace : ∀ c ∈ s, isPySpace c = false := fun c hc =>
    isPySpace_eq_false_of_isDigit ((List.all_eq_true.mp hall) c hc)
  rcases s with _ | ⟨a, t⟩
  · exact absurd rfl hne
  · have hadig : a.isDigit = true := (List.all_eq_true.mp hall) a (List.mem_cons_self a t)
    unfold parseFloat
    rw [pyStrip_no_space hnospace]
    split
    · rename_i rest heq
      rw [List.cons.injEq] at heq
      rw [heq.1] at hadig
      exact absurd hadig (by decide)
    · rename_i rest heq
      rw [List.cons.injEq] at heq
      rw [heq.1] at hadig
      exact absurd hadig (by decide)
    · exact parseFloatCore_digits hne hall

theorem parseFloat_natRepr (n : ℕ) : parseFloat (natRepr n) = some ((n : ℚ)) := by
  rw [parseFloat_digits (natRepr_ne_nil n) (natRepr_all_digit n), digitsVal_natRepr]

theorem parseFloat_intRepr (z : ℤ) : parseFloat (intRepr z) = some ((z : ℚ)) := by
  unfold intRepr
  by_cases hz : z < 0
  · rw [if_pos hz]
    have hnospace : ∀ c ∈ '-' :: natRepr z.natAbs, isPySpace c = false := by
      intro c hc
      rcases List.mem_cons.mp hc with h | h
      · subst h; decide
      · exact natRepr_no_space _ c h
    unfold parseFloat
    rw [pyStrip_no_space hnospace]
    show Option.map (fun m => -m) (parseFloatCore (natRepr z.natAbs)) = some ((z : ℚ))
    rw [parseFloatCore_digits (natRepr_ne_nil _) (natRepr_all_digit _),
      digitsVal_natRepr]
    simp only [Option.map_some']
    congr 1
    have habs : ((z.natAbs : ℤ)) = -z := by omega
    have hq : ((z.natAbs : ℕ) : ℚ) = ((-z : ℤ) : ℚ) := by
      rw [← habs]
      exact (Int.cast_natCast _).symm
    rw [hq]
    push_cast
    ring
  · rw [if_neg hz]
    rw [parseFloat_natRepr]
    congr 1
    have htn : ((z.toNat : ℤ)) = z := Int.toNat_of_nonneg (by omega)
    rw [show ((z.toNat : ℕ) : ℚ) = (((z.toNat : ℤ)) : ℚ) from (Int.cast_natCast _).symm,
      htn]

theorem not_mem_fracNumPart {c : Char} (hdig : c.isDigit = false)
    (h1 : c ≠ '/') (h2 : c ≠ ' ') (S T : ℕ) :
    c ∉ (natRepr S ++ '/' :: natRepr T ++ [' ']) := by
  intro hmem
  rcases List.mem_append.mp hmem with h | h
  · rcases List.mem_append.mp h with h | h
    · exact not_mem_natRepr hdig S h
    · rcases List.mem_cons.mp h with h | h
      · exact h1 h
      · exact not_mem_natRepr hdig T h
  · rw [List.mem_singleton] at h
    exact h2 h

theorem fracScan_fracInputStr (S T : ℕ) {pstr : List Char}
    (hps : ∀ d ∈ pstr, d ∉ ['(', ')', '%', ' ']) :
    fracScan (fracInputStr S T pstr) = some ((S : ℤ), (T : ℤ), pstr) := by
  have hnoParenXs : '(' ∉ (natRepr S ++ '/' :: natRepr T ++ [' ']) :=
    not_mem_fracNumPart (by decide) (by decide) (by decide) S T
  have hnoParenYs : '(' ∉ (pstr ++ ['%', ')']) := by
    intro hmem
    rcases List.mem_append.mp hmem with h | h
    · exact (hps '(' h) (by decide)
    · simp at h
  have hsplit1 : pySplit '(' (fracInputStr S T pstr)
      = (natRepr S ++ '/' :: natRepr T ++ [' ']) :: [pstr ++ ['%', ')']] := by
    unfold fracInputStr
    rw [pySplit_append hnoParenXs, pySplit_of_not_mem hnoParenYs]
  have hnospaceFrac : ∀ c ∈ natRepr S ++ '/' :: natRepr T, isPySpace c = false := by
    intro c hc
    rcases List.mem_append.mp hc with h | h
    · exact natRepr_no_space S c h
    · rcases List.mem_cons.mp h with h | h
      · subst h; decide
      · exact natRepr_no_space T c h
  have hstripFrac : pyStrip (natRepr S ++ '/' :: (natRepr T ++ [' ']))
      = natRepr S ++ '/' :: natRepr T := by
    rw [show natRepr S ++ '/' :: (natRepr T ++ [' '])
        = (natRepr S ++ '/' :: natRepr T) ++ [' '] by simp]
    exact pyStrip_append_space hnospaceFrac
  have hsplitSlash : pySplit '/' (natRepr S ++ '/' :: natRepr T)
      = [natRepr S, natRepr T] := by
    rw [pySplit_append (not_mem_natRepr (by decide) S),
      pySplit_of_not_mem (not_mem_natRepr (by decide) T)]
  have hsplitPct : pySplit ')' (pstr ++ ['%', ')']) = [pstr ++ ['%'], []] := by
    rw [show pstr ++ ['%', ')'] = (pstr ++ ['%']) ++ ')' :: [] by simp]
    rw [pySplit_append ?hnp]
    · rfl
    case hnp =>
      intro hmem
      rcases List.mem_append.mp hmem with h | h
      · exact (hps ')' h) (by decide)
      · simp at h
  have hstripPct : pyStripSet ['%', ' '] (pstr ++ ['%']) = pstr := by
    refine pyStripSet_append_mem (by decide) ?_
    intro d hd hmem
    rcases List.mem_cons.mp hmem with h | h
    · exact (hps d hd) (by rw [h]; decide)
    · rw [List.mem_singleton] at h
      exact (hps d hd) (by rw [h]; decide)
  unfold fracScan
  rw [hsplit1]
  simp [hstripFrac, hsplitSlash, hsplitPct, hstripPct, pyParseInt_natRepr]

theorem head?_mem {s : List Char} {c : Char} (h : s.head? = some c) : c ∈ s := by
  cases s with
  | nil => simp at h
  | cons a t =>
    simp only [List.head?_cons, Option.some.injEq] at h
    rw [← h]
    exact List.mem_cons_self a t

theorem dropWhile_of_head? {p : Char → Bool} {s : List Char}
    (h : ∀ c, s.head? = some c → p c = false) : s.dropWhile p = s := by
  cases s with
  | nil => rfl
  | cons c t =>
    have hc := h c rfl
    simp [List.dropWhile, hc]

theorem pyStrip_of_ends {s : List Char}
    (h1 : ∀ c, s.head? = some c → isPySpace c = false)
    (h2 : ∀ c, s.getLast? = some c → isPySpace c = false) : pyStrip s = s := by
  unfold pyStrip
  have hd1 : s.dropWhile isPySpace = s := dropWhile_of_head? h1
  rw [hd1]
  have hd2 : s.reverse.dropWhile isPySpace = s.reverse :=
    dropWhile_of_head? (fun c hc => h2 c (by rwa [List.head?_reverse] at hc))
  rw [hd2, List.reverse_reverse]

theorem fracInputStr_getLast? (S T : ℕ) (pstr : List Char) :
    (fracInputStr S T pstr).getLast? = some ')' := by
  rw [show fracInputStr S T pstr
      = ((natRepr S ++ '/' :: natRepr T ++ [' ']) ++ '(' :: (pstr ++ ['%'])) ++ [')']
    by simp [fracInputStr]]
  exact List.getLast?_concat _

theorem fracInputStr_head? (S T : ℕ) (pstr : List Char) :
    (fracInputStr S T pstr).head? = (natRepr S).head? := by
  unfold fracInputStr
  rw [List.head?_append_of_ne_nil _ (by simp [natRepr_ne_nil S])]
  rw [List.head?_append_of_ne_nil _ (by simp [natRepr_ne_nil S])]
  exact List.head?_append_of_ne_nil _ (natRepr_ne_nil S)

theorem pyStrip_fracInputStr (S T : ℕ) (pstr : List Char) :
    pyStrip (fracInputStr S T pstr) = fracInputStr S T pstr := by
  apply pyStrip_of_ends
  · intro c hc
    rw [fracInputStr_head? S T pstr] at hc
    exact natRepr_no_space S c (head?_mem hc)
  · intro c hc
    rw [fracInputStr_getLast? S T pstr, Option.some.injEq] at hc
    subst hc
    decide

theorem fracInputStr_ne_nil (S T : ℕ) (pstr : List Char) :
    fracInputStr S T pstr ≠ [] := by
  unfold fracInputStr
  simp

theorem fracShape_fracInputStr (S T : ℕ) (pstr : List Char) :
    fracShape (fracInputStr S T pstr) = true := by
  have h1 : '/' ∈ fracInputStr S T pstr := by
    unfold fracInputStr
    refine List.mem_append.mpr (Or.inl ?_)
    refine List.mem_append.mpr (Or.inl ?_)
    exact List.mem_append.mpr (Or.inr (List.mem_cons_self _ _))
  have h2 : '(' ∈ fracInputStr S T pstr := by
    unfold fracInputStr
    exact List.mem_append.mpr (Or.inr (List.mem_cons_self _ _))
  simp [fracShape, h1, h2, fracInputStr_getLast? S T pstr]

/-! ## Basic lemmas about rounding -/

theorem abs_halfEvenZ_sub_le (q : ℚ) : |(halfEvenZ q : ℚ) - q| ≤ 1 / 2 := by
  unfold halfEvenZ
  have hfl : (⌊q⌋ : ℚ) ≤ q := Int.floor_le q
  have hfu : q < ⌊q⌋ + 1 := Int.lt_floor_add_one q
  by_cases h1 : q - ⌊q⌋ < 1 / 2
  · simp only [if_pos h1]
    rw [abs_le]
    constructor <;> linarith
  · simp only [if_neg h1]
    by_cases h2 : 1 / 2 < q - ⌊q⌋
    · simp only [if_pos h2]
      rw [abs_le]
      push_cast
      constructor <;> linarith
    · simp only [if_neg h2]
      have heq : q - ⌊q⌋ = 1 / 2 := le_antisymm (not_lt.mp h2) (not_lt.mp h1)
      by_cases h3 : ⌊q⌋ % 2 = 0
      · simp only [if_pos h3]
        rw [abs_le]
        constructor <;> linarith
      · simp only [if_neg h3]
        rw [abs_le]
        push_cast
        constructor <;> linarith

theorem abs_pyRound_sub_le (q : ℚ) (n : ℕ) :
    |pyRound q n - q| ≤ 1 / (2 * (10 : ℚ) ^ n) := by
  unfold pyRound
  have hpow : (0 : ℚ) < (10 : ℚ) ^ n := by positivity
  have h := abs_halfEvenZ_sub_le (q * (10 : ℚ) ^ n)
  have expand : (halfEvenZ (q * (10 : ℚ) ^ n) : ℚ) / (10 : ℚ) ^ n - q
      = ((halfEvenZ (q * (10 : ℚ) ^ n) : ℚ) - q * (10 : ℚ) ^ n) / (10 : ℚ) ^ n := by
    field_simp
    ring
  rw [expand, abs_div, abs_of_pos hpow, div_le_div_iff₀ hpow (by positivity)]
  calc |(halfEvenZ (q * (10 : ℚ) ^ n) : ℚ) - q * (10 : ℚ) ^ n| * (2 * (10 : ℚ) ^ n)
      ≤ (1 / 2) * (2 * (10 : ℚ) ^ n) := by
        apply mul_le_mul_of_nonneg_right h (by positivity)
    _ = 1 * (10 : ℚ) ^ n := by ring

/-! ## Routing lemmas for `convertToNumericStr` -/

theorem convertToNumericStr_frac_eq (s : List Char) (su tot : ℤ) (pp : List Char)
    (pv : Option ℚ)
    (h0 : (pyStrip s).isEmpty = false)
    (h1 : fracShape (pyStrip s) = true)
    (h2 : fracScan (pyStrip s) = some (su, tot, pp))
    (h3 : fracPercentage su tot pp = some pv) :
    convertToNumericStr s = .frac (some su) (some tot) pv := by
  simp only [convertToNumericStr, fracParseCore]
  rw [h0, h1, h2]
  simp [h3]

theorem convertToNumericStr_frac_err (s : List Char)
    (h0 : (pyStrip s).isEmpty = false)
    (h1 : fracShape (pyStrip s) = true)
    (h2 : fracParseCore (pyStrip s) = Option.none) :
    convertToNumericStr s = .frac Option.none Option.none Option.none := by
  simp only [convertToNumericStr]
  rw [h0, h1, h2]
  simp

/-- Parsing the canonical `"S/T (P%)"` string: the fraction branch is taken
and yields exactly the counts `S`, `T` with the percentage computed by
`fracPercentage`. -/
theorem convertToNumericStr_fracInputStr (S T : ℕ) {pstr : List Char}
    {pv : Option ℚ}
    (hps : ∀ d ∈ pstr, d ∉ ['(', ')', '%', ' '])
    (hperc : fracPercentage (S : ℤ) (T : ℤ) pstr = some pv) :
    convertToNumericStr (fracInputStr S T pstr)
      = .frac (some (S : ℤ)) (some (T : ℤ)) pv := by
  apply convertToNumericStr_frac_eq
  · rw [pyStrip_fracInputStr]
    cases hx : (fracInputStr S T pstr).isEmpty
    · rfl
    · rw [List.isEmpty_iff] at hx
      exact absurd hx (fracInputStr_ne_nil S T pstr)
  · rw [pyStrip_fracInputStr]
    exact fracShape_fracInputStr S T pstr
  · rw [pyStrip_fracInputStr]
    exact fracScan_fracInputStr S T hps
  · exact hperc

/-! ## Concrete evaluation helpers -/

theorem halfEvenZ_intCast (z : ℤ) : halfEvenZ ((z : ℚ)) = z := by
  unfold halfEvenZ
  rw [Int.floor_intCast]
  norm_num

theorem halfEvenZ_eq_down {q : ℚ} {z : ℤ} (hfl : ⌊q⌋ = z) (hlt : q - z < 1 / 2) :
    halfEvenZ q = z := by
  unfold halfEvenZ
  rw [hfl, if_pos hlt]

theorem halfEvenZ_eq_up {q : ℚ} {z : ℤ} (hfl : ⌊q⌋ = z) (hgt : 1 / 2 < q - z) :
    halfEvenZ q = z + 1 := by
  unfold halfEvenZ
  rw [hfl, if_neg (by linarith), if_pos hgt]

theorem pyRound_eq_of {q : ℚ} {n : ℕ} {z : ℤ}
    (h : halfEvenZ (q * (10 : ℚ) ^ n) = z) : pyRound q n = (z : ℚ) / (10 : ℚ) ^ n := by
  rw [pyRound, h]

theorem parseFloat_ne_nil {pstr : List Char} {p : ℚ}
    (h : parseFloat pstr = some p) : pstr ≠ [] := by
  intro he
  subst he
  rw [show parseFloat ([] : List Char) = Option.none from by decide] at h
  exact Option.noConfusion h

theorem isEmpty_false_of_ne_nil {s : List Char} (h : s ≠ []) :
    s.isEmpty = false := by
  cases hx : s.isEmpty
  · rfl
  · rw [List.isEmpty_iff] at hx
    exact absurd hx h

/-! ## Claim theorems: the Numeric Normalizer on fraction-formatted input -/

/-- C1 (amended): for every fraction-formatted input `"S/T (P%)"` with
`T > 0`, `_convert_to_numeric` returns a fraction record with
`successful = S` and `total = T`; the literal percentage `round(P/100, 4)` is
replaced by `round(S/T, 4)` exactly when the two rounded values differ by
more than `0.005`, and the resulting percentage differs from `S/T` by at most
`0.00505` (tolerance `0.005` plus the 4-decimal rounding slack `0.00005`);
the bound `0.005` claimed by the spec does not hold (see the
counterexample). -/
theorem claim_C1_fraction_tolerance (S T : ℕ) (pstr : List Char) (p : ℚ)
    (hT : 0 < T)
    (hpf : parseFloat pstr = some p)
    (hps : ∀ d ∈ pstr, d ∉ ['(', ')', '%', ' ']) :
    ∃ perc : ℚ,
      convertToNumericStr (fracInputStr S T pstr)
        = .frac (some (S : ℤ)) (some (T : ℤ)) (some perc) ∧
      perc = (if 1 / 200 < |pyRound (p / 100) 4 - pyRound ((S : ℚ) / (T : ℚ)) 4|
              then pyRound ((S : ℚ) / (T : ℚ)) 4 else pyRound (p / 100) 4) ∧
      |perc - (S : ℚ) / (T : ℚ)| ≤ 101 / 20000 := by
  have hne : pstr ≠ [] := parseFloat_ne_nil hpf
  have hcast : (((S : ℤ) : ℚ)) / (((T : ℤ) : ℚ)) = (S : ℚ) / (T : ℚ) := by
    push_cast
    ring
  have hTz : (0 : ℤ) < (T : ℤ) := by exact_mod_cast hT
  have hEmpty : ¬(pstr.isEmpty = true) := by
    rw [isEmpty_false_of_ne_nil hne]
    exact Bool.noConfusion
  have hperc : fracPercentage (S : ℤ) (T : ℤ) pstr
      = some (some (if 1 / 200 < |pyRound (p / 100) 4 - pyRound ((S : ℚ) / (T : ℚ)) 4|
                    then pyRound ((S : ℚ) / (T : ℚ)) 4 else pyRound (p / 100) 4)) := by
    unfold fracPercentage
    rw [if_neg hEmpty]
    simp only [hpf]
    rw [hcast, if_pos hTz]
  refine ⟨_, convertToNumericStr_fracInputStr S T hps hperc, rfl, ?_⟩
  have hcalc : |pyRound ((S : ℚ) / (T : ℚ)) 4 - (S : ℚ) / (T : ℚ)| ≤ 1 / 20000 := by
    have h := abs_pyRound_sub_le ((S : ℚ) / (T : ℚ)) 4
    have : (1 : ℚ) / (2 * (10 : ℚ) ^ 4) = 1 / 20000 := by norm_num
    linarith [h, this ▸ h]
  by_cases hcmp : 1 / 200 < |pyRound (p / 100) 4 - pyRound ((S : ℚ) / (T : ℚ)) 4|
  · rw [if_pos hcmp]
    linarith [hcalc]
  · rw [if_neg hcmp]
    have hlit : |pyRound (p / 100) 4 - pyRound ((S : ℚ) / (T : ℚ)) 4| ≤ 1 / 200 :=
      not_lt.mp hcmp
    have htri := abs_sub_le (pyRound (p / 100) 4) (pyRound ((S : ℚ) / (T : ℚ)) 4)
      ((S : ℚ) / (T : ℚ))
    linarith

/-- Witness for C1 at the spec scenario `"455/524 (87%)"`: the literal `87%`
stands (it is within tolerance of the recomputed `0.8683`). -/
theorem claim_C1_witness :
    ∃ perc : ℚ,
      convertToNumericStr (fracInputStr 455 524 (strL "87"))
        = .frac (some ((455 : ℕ) : ℤ)) (some ((524 : ℕ) : ℤ)) (some perc) ∧
      perc = (if 1 / 200 < |pyRound ((87 : ℚ) / 100) 4
                  - pyRound (((455 : ℕ) : ℚ) / ((524 : ℕ) : ℚ)) 4|
              then pyRound (((455 : ℕ) : ℚ) / ((524 : ℕ) : ℚ)) 4
              else pyRound ((87 : ℚ) / 100) 4) ∧
      |perc - ((455 : ℕ) : ℚ) / ((524 : ℕ) : ℚ)| ≤ 101 / 20000 :=
  claim_C1_fraction_tolerance 455 524 (strL "87") 87 (by norm_num)
    (by rw [parseFloat_digits (by decide) (by decide),
          show digitsVal (strL "87") = 87 from by decide]
        norm_num)
    (by decide)

/-- Counterexample to C1 as stated: on `"100/9999 (0.5%)"` the literal
percentage `0.005` stands (it is within `0.005` of the rounded recomputation
`0.01`), yet it differs from `S/T = 100/9999 ≈ 0.0050010` by more than
`0.005`. -/
theorem claim_C1_counterexample :
    convertToNumericStr (strL "100/9999 (0.5%)")
      = .frac (some 100) (some 9999) (some (1 / 200)) ∧
    ¬(|(1 / 200 : ℚ) - (100 : ℚ) / 9999| ≤ 1 / 200) := by
  constructor
  · rw [show strL "100/9999 (0.5%)" = fracInputStr 100 9999 (strL "0.5") from by decide]
    have hpf : parseFloat (strL "0.5") = some (1 / 2) := by
      unfold parseFloat
      rw [show pyStrip (strL "0.5") = strL "0.5" from by decide]
      show parseFloatCore (strL "0.5") = some (1 / 2)
      unfold parseFloatCore
      rw [show splitFirst (fun c => c = 'e' || c = 'E') (strL "0.5")
          = (strL "0.5", Option.none) from by decide]
      show parseMantissa (strL "0.5") = some (1 / 2)
      unfold parseMantissa
      simp only [show splitFirst (fun c => decide (c = '.')) (strL "0.5")
          = (['0'], some ['5']) from by decide]
      have hc1 : ¬((['0'] : List Char) = [] ∧ (['5'] : List Char) = []) := by decide
      have hc2 : ((['0'] : List Char) = [] ∨ (['0'] : List Char).all Char.isDigit = true) ∧
          ((['5'] : List Char) = [] ∨ (['5'] : List Char).all Char.isDigit = true) ∧
          ((['0'] : List Char) ≠ [] ∨ (['5'] : List Char) ≠ []) := by decide
      rw [if_neg hc1, if_pos hc2]
      rw [show digitsVal ['0'] = 0 from by decide,
        show digitsVal ['5'] = 5 from by decide]
      norm_num
    have hlit : pyRound ((1 / 2 : ℚ) / 100) 4 = 1 / 200 := by
      have h50 : ((1 / 2 : ℚ) / 100) * (10 : ℚ) ^ 4 = ((50 : ℤ) : ℚ) := by norm_num
      rw [pyRound, h50, halfEvenZ_intCast]
      norm_num
    have hcalc : pyRound ((100 : ℚ) / 9999) 4 = 1 / 100 := by
      have hfl : ⌊((100 : ℚ) / 9999) * (10 : ℚ) ^ 4⌋ = 100 := by
        rw [Int.floor_eq_iff]
        constructor <;> norm_num
      have hhe : halfEvenZ (((100 : ℚ) / 9999) * (10 : ℚ) ^ 4) = 100 :=
        halfEvenZ_eq_down hfl (by norm_num)
      rw [pyRound, hhe]
      norm_num
    have hperc : fracPercentage (100 : ℤ) (9999 : ℤ) (strL "0.5")
        = some (some (1 / 200)) := by
      have hEmpty : ¬((strL "0.5").isEmpty = true) := by decide
      have hTz : (0 : ℤ) < (9999 : ℤ) := by norm_num
      unfold fracPercentage
      rw [if_neg hEmpty]
      simp only [hpf]
      rw [show (((100 : ℤ) : ℚ)) / (((9999 : ℤ) : ℚ)) = (100 : ℚ) / 9999 from by
        push_cast; ring]
      rw [if_pos hTz]
      rw [hlit, hcalc]
      have hno : ¬((1 / 200 : ℚ) < |(1 / 200 : ℚ) - 1 / 100|) := by
        rw [abs_of_neg (by norm_num)]
        norm_num
      rw [if_neg hno]
    have h := convertToNumericStr_fracInputStr 100 9999
      (by decide) hperc
    rw [h]
    norm_num
  · rw [abs_of_neg (by norm_num)]
    norm_num

/-- C2 (amended): for a fraction-formatted input `"S/0 (P%)"` with a literal
percentage present, `_convert_to_numeric` does not raise a division-by-zero
error, but the percentage field is the literal `round(P/100, 4)` — not null
as the spec claims (and in particular `0.0`, not null, for `"0/0 (0%)"`). -/
theorem claim_C2_zero_total (S : ℕ) (pstr : List Char) (p : ℚ)
    (hpf : parseFloat pstr = some p)
    (hps : ∀ d ∈ pstr, d ∉ ['(', ')', '%', ' ']) :
    convertToNumericStr (fracInputStr S 0 pstr)
      = .frac (some (S : ℤ)) (some ((0 : ℕ) : ℤ)) (some (pyRound (p / 100) 4)) := by
  have hne : pstr ≠ [] := parseFloat_ne_nil hpf
  have hperc : fracPercentage (S : ℤ) ((0 : ℕ) : ℤ) pstr
      = some (some (pyRound (p / 100) 4)) := by
    have hEmpty : ¬(pstr.isEmpty = true) := by
      rw [isEmpty_false_of_ne_nil hne]
      exact Bool.noConfusion
    have hT0 : ¬((0 : ℤ) < (((0 : ℕ)) : ℤ)) := by norm_num
    unfold fracPercentage
    rw [if_neg hEmpty]
    simp only [hpf]
    rw [if_neg hT0]
  exact convertToNumericStr_fracInputStr S 0 hps hperc

/-- Witness for C2 at `"5/0 (40%)"`: the percentage field is the literal
`0.4`. -/
theorem claim_C2_witness :
    convertToNumericStr (fracInputStr 5 0 (strL "40"))
      = .frac (some ((5 : ℕ) : ℤ)) (some ((0 : ℕ) : ℤ))
          (some (pyRound ((40 : ℚ) / 100) 4)) :=
  claim_C2_zero_total 5 (strL "40") 40
    (by rw [parseFloat_digits (by decide) (by decide)]
        rw [show digitsVal (strL "40") = 40 from by decide]
        norm_num)
    (by decide)

/-- Counterexample to C2 as stated: `"0/0 (0%)"` yields percentage `0.0`
(a number, the literal percentage), not null. -/
theorem claim_C2_counterexample :
    convertToNumericStr (strL "0/0 (0%)")
      = .frac (some 0) (some 0) (some 0) ∧
    (some (0 : ℚ)) ≠ (Option.none : Option ℚ) := by
  constructor
  · rw [show strL "0/0 (0%)" = fracInputStr 0 0 (strL "0") from by decide]
    have hpf : parseFloat (strL "0") = some 0 := by
      rw [parseFloat_digits (by decide) (by decide)]
      rw [show digitsVal (strL "0") = 0 from by decide]
      norm_num
    have h := claim_C2_zero_total 0 (strL "0") 0 hpf (by decide)
    rw [h]
    have : pyRound ((0 : ℚ) / 100) 4 = 0 := by
      have h0 : ((0 : ℚ) / 100) * (10 : ℚ) ^ 4 = ((0 : ℤ) : ℚ) := by norm_num
      rw [pyRound, h0, halfEvenZ_intCast]
      norm_num
    rw [this]
    norm_num
  · exact Option.some_ne_none 0


/-! ## Claim C7: the textual round trip is lossless for the counts -/

theorem intRepr_ne_nil (z : ℤ) : intRepr z ≠ [] := by
  unfold intRepr
  by_cases hz : z < 0
  · rw [if_pos hz]
    exact List.cons_ne_nil _ _
  · rw [if_neg hz]
    exact natRepr_ne_nil _

theorem formatFracStr_getLast? (a t p : ℤ) :
    (formatFracStr a t p).getLast? = some ')' := by
  rw [show formatFracStr a t p
      = ((intRepr a ++ '/' :: intRepr t ++ [' ']) ++ '(' :: (intRepr p ++ ['%'])) ++ [')']
    by simp [formatFracStr]]
  exact List.getLast?_concat _

theorem formatFracStr_head? (a t p : ℤ) :
    (formatFracStr a t p).head? = (intRepr a).head? := by
  unfold formatFracStr
  rw [List.head?_append_of_ne_nil _ (by simp [intRepr_ne_nil a])]
  rw [List.head?_append_of_ne_nil _ (by simp [intRepr_ne_nil a])]
  exact List.head?_append_of_ne_nil _ (intRepr_ne_nil a)

theorem pyStrip_formatFracStr (a t p : ℤ) :
    pyStrip (formatFracStr a t p) = formatFracStr a t p := by
  apply pyStrip_of_ends
  · intro c hc
    rw [formatFracStr_head? a t p] at hc
    exact intRepr_no_space a c (head?_mem hc)
  · intro c hc
    rw [formatFracStr_getLast? a t p, Option.some.injEq] at hc
    subst hc
    decide

theorem fracShape_formatFracStr (a t p : ℤ) :
    fracShape (formatFracStr a t p) = true := by
  have h1 : '/' ∈ formatFracStr a t p := by
    unfold formatFracStr
    refine List.mem_append.mpr (Or.inl ?_)
    refine List.mem_append.mpr (Or.inl ?_)
    exact List.mem_append.mpr (Or.inr (List.mem_cons_self _ _))
  have h2 : '(' ∈ formatFracStr a t p := by
    unfold formatFracStr
    exact List.mem_append.mpr (Or.inr (List.mem_cons_self _ _))
  simp [fracShape, h1, h2, formatFracStr_getLast? a t p]

theorem fracScan_formatFracStr (a t p : ℤ) :
    fracScan (formatFracStr a t p) = some (a, t, intRepr p) := by
  have hnoParenXs : '(' ∉ (intRepr a ++ '/' :: intRepr t ++ [' ']) := by
    intro hmem
    rcases List.mem_append.mp hmem with h | h
    · rcases List.mem_append.mp h with h | h
      · exact not_mem_intRepr (by decide) (by decide) a h
      · rcases List.mem_cons.mp h with h | h
        · exact absurd h (by decide)
        · exact not_mem_intRepr (by decide) (by decide) t h
    · rw [List.mem_singleton] at h
      exact absurd h (by decide)
  have hnoParenYs : '(' ∉ (intRepr p ++ ['%', ')']) := by
    intro hmem
    rcases List.mem_append.mp hmem with h | h
    · exact not_mem_intRepr (by decide) (by decide) p h
    · simp at h
  have hsplit1 : pySplit '(' (formatFracStr a t p)
      = (intRepr a ++ '/' :: intRepr t ++ [' ']) :: [intRepr p ++ ['%', ')']] := by
    unfold formatFracStr
    rw [pySplit_append hnoParenXs, pySplit_of_not_mem hnoParenYs]
  have hnospaceFrac : ∀ c ∈ intRepr a ++ '/' :: intRepr t, isPySpace c = false := by
    intro c hc
    rcases List.mem_append.mp hc with h | h
    · exact intRepr_no_space a c h
    · rcases List.mem_cons.mp h with h | h
      · subst h; decide
      · exact intRepr_no_space t c h
  have hstripFrac : pyStrip (intRepr a ++ '/' :: (intRepr t ++ [' ']))
      = intRepr a ++ '/' :: intRepr t := by
    rw [show intRepr a ++ '/' :: (intRepr t ++ [' '])
        = (intRepr a ++ '/' :: intRepr t) ++ [' '] by simp]
    exact pyStrip_append_space hnospaceFrac
  have hsplitSlash : pySplit '/' (intRepr a ++ '/' :: intRepr t)
      = [intRepr a, intRepr t] := by
    rw [pySplit_append (not_mem_intRepr (by decide) (by decide) a),
      pySplit_of_not_mem (not_mem_intRepr (by decide) (by decide) t)]
  have hsplitPct : pySplit ')' (intRepr p ++ ['%', ')'])
      = [intRepr p ++ ['%'], []] := by
    rw [show intRepr p ++ ['%', ')'] = (intRepr p ++ ['%']) ++ ')' :: [] by simp]
    rw [pySplit_append ?hnp]
    · rfl
    case hnp =>
      intro hmem
      rcases List.mem_append.mp hmem with h | h
      · exact not_mem_intRepr (by decide) (by decide) p h
      · simp at h
  have hstripPct : pyStripSet ['%', ' '] (intRepr p ++ ['%']) = intRepr p := by
    refine pyStripSet_append_mem (by decide) ?_
    intro d hd hmem
    rcases List.mem_cons.mp hmem with h | h
    · subst h
      exact not_mem_intRepr (by decide) (by decide) p hd
    · rw [List.mem_singleton] at h
      subst h
      exact not_mem_intRepr (by decide) (by decide) p hd
  unfold fracScan
  rw [hsplit1]
  simp [hstripFrac, hsplitSlash, hsplitPct, hstripPct, pyParseInt_intRepr]

theorem fracPercentage_total_some (su tot : ℤ) {pp : List Char} {p : ℚ}
    (hpf : parseFloat pp = some p) (hne : pp ≠ []) :
    ∃ pv : ℚ, fracPercentage su tot pp = some (some pv) := by
  have hEmpty : ¬(pp.isEmpty = true) := by
    rw [isEmpty_false_of_ne_nil hne]
    exact Bool.noConfusion
  unfold fracPercentage
  rw [if_neg hEmpty]
  simp only [hpf]
  by_cases h : 0 < tot
  · rw [if_pos h]
    exact ⟨_, rfl⟩
  · rw [if_neg h]
    exact ⟨_, rfl⟩

/-- C7: re-serializing integer counts `a/t` through the textual
`"successful/total (percentage%)"` format (the f-string of
`_format_stat_with_total_percentage`) and re-parsing with
`_convert_to_numeric` recovers exactly `successful = a` and `total = t`,
for every integer percentage component `p` — in particular for the
percentage `calcPercentage a t` the serializer writes. -/
theorem claim_C7_roundtrip (a t p : ℤ) :
    ∃ pv : ℚ,
      convertToNumericStr (formatFracStr a t p)
        = .frac (some a) (some t) (some pv) := by
  obtain ⟨pv, hperc⟩ := fracPercentage_total_some a t
    (parseFloat_intRepr p) (intRepr_ne_nil p)
  refine ⟨pv, ?_⟩
  apply convertToNumericStr_frac_eq _ _ _ (intRepr p)
  · rw [pyStrip_formatFracStr]
    exact isEmpty_false_of_ne_nil (by
      unfold formatFracStr
      simp [intRepr_ne_nil])
  · rw [pyStrip_formatFracStr]
    exact fracShape_formatFracStr a t p
  · rw [pyStrip_formatFracStr]
    exact fracScan_formatFracStr a t p
  · exact hperc


/-! ## Claim C8: the Numeric Normalizer never raises; failure paths -/

/-- C8 (amended): `_convert_to_numeric` is total — every Python-level
exception is caught inside the function (modelled by `Option`), so it never
raises.  Every failure path returns `None`, except the fraction-branch
failure, which returns the record `{successful: None, total: None,
percentage: None}` rather than `None` itself (this is what refutes the claim
as stated). -/
theorem claim_C8_failure_paths :
    convertToNumeric PyVal.none = PyVal.none ∧
    (∀ s : List Char, pyStrip s = [] → convertToNumericStr s = PyVal.none) ∧
    (∀ s : List Char, fracShape (pyStrip s) = true →
      fracParseCore (pyStrip s) = Option.none →
      convertToNumericStr s = PyVal.frac Option.none Option.none Option.none) ∧
    (∀ s : List Char, pyStrip s ≠ [] → fracShape (pyStrip s) = false →
      pctShape (pyStrip s) = true →
      parseFloat (pyStripSet ['%', ' '] (pyStrip s)) = Option.none →
      convertToNumericStr s = PyVal.none) ∧
    (∀ s : List Char, pyStrip s ≠ [] → fracShape (pyStrip s) = false →
      pctShape (pyStrip s) = false →
      parseFloat (replaceComma (pyStrip s)) = Option.none →
      convertToNumericStr s = PyVal.none) := by
  refine ⟨rfl, ?_, ?_, ?_, ?_⟩
  · intro s h
    simp [convertToNumericStr, h]
  · intro s h1 h2
    refine convertToNumericStr_frac_err s ?_ h1 h2
    apply isEmpty_false_of_ne_nil
    intro hnil
    rw [hnil] at h1
    exact absurd h1 (by decide)
  · intro s h0 h1 h2 h3
    simp [convertToNumericStr, isEmpty_false_of_ne_nil h0, h1, h2, h3]
  · intro s h0 h1 h2 h3
    simp [convertToNumericStr, isEmpty_false_of_ne_nil h0, h1, h2, h3]

/-- Witness for C8: the unparseable input `"N/A"` returns `None`. -/
theorem claim_C8_witness : convertToNumericStr (strL "N/A") = PyVal.none := by
  have h := claim_C8_failure_paths
  exact h.2.2.2.2 (strL "N/A") (by decide) (by decide) (by decide) (by decide)

/-- Counterexample to C8 as stated: the unparseable fraction-format input
`"x/y (z%)"` hits a failure path yet returns the all-null record, not
null. -/
theorem claim_C8_counterexample :
    convertToNumericStr (strL "x/y (z%)")
      = PyVal.frac Option.none Option.none Option.none ∧
    PyVal.frac Option.none Option.none Option.none ≠ PyVal.none := by
  constructor
  · decide
  · decide


/-! ## Claim C3: ground duels derivation -/

/-- C3: when the direct `groundDuelWon`/`groundDuelTotal` pair is not fully
available, ground duels won is derived as `duels_won − aerials_won` and the
total as `duels_total − aerials_total`; when that yields a negative or
inconsistent total (`total < won` or `total < 0`), the `'?'` placeholder is
emitted instead of a formatted count. -/
theorem claim_C3_ground_duels (r : DuelRaw)
    (habsent : coerceDirectCount r.groundDuelWon = Option.none ∨
      coerceDirectCount r.groundDuelTotal = Option.none) :
    groundDuelsWonStr r
      = (if coerceDuelCount r.duelWon - coerceDuelCount r.aerialWon
            ≤ (coerceDuelCount r.duelWon + coerceDuelCount r.duelLost)
              - (coerceDuelCount r.aerialWon + coerceDuelCount r.aerialLost) ∧
          0 ≤ (coerceDuelCount r.duelWon + coerceDuelCount r.duelLost)
              - (coerceDuelCount r.aerialWon + coerceDuelCount r.aerialLost)
         then formatFracStr
            (coerceDuelCount r.duelWon - coerceDuelCount r.aerialWon)
            ((coerceDuelCount r.duelWon + coerceDuelCount r.duelLost)
              - (coerceDuelCount r.aerialWon + coerceDuelCount r.aerialLost))
            (calcPercentage
              (coerceDuelCount r.duelWon - coerceDuelCount r.aerialWon)
              ((coerceDuelCount r.duelWon + coerceDuelCount r.duelLost)
                - (coerceDuelCount r.aerialWon + coerceDuelCount r.aerialLost)))
         else unknownGroundStr
            ((coerceDuelCount r.duelWon + coerceDuelCount r.duelLost)
              - (coerceDuelCount r.aerialWon + coerceDuelCount r.aerialLost))) := by
  rcases h1 : coerceDirectCount r.groundDuelWon with _ | gw <;>
    rcases h2 : coerceDirectCount r.groundDuelTotal with _ | gt <;>
    simp [h1, h2] at habsent ⊢ <;>
    simp [groundDuelsWonStr, h1, h2]

/-- Witness for C3 at the spec instance: `duelWon = 58`, `aerialWon = 12`,
no direct ground-duel values, losses absent (0) — the derived value is
`46`, emitted as `"46/46 (100%)"`. -/
theorem claim_C3_witness :
    groundDuelsWonStr
      ⟨some (PyVal.int 58), Option.none, some (PyVal.int 12),
        Option.none, Option.none, Option.none⟩ = strL "46/46 (100%)" := by
  have h := claim_C3_ground_duels
    ⟨some (PyVal.int 58), Option.none, some (PyVal.int 12),
      Option.none, Option.none, Option.none⟩ (Or.inl rfl)
  rw [h]
  rw [if_pos (by decide)]
  have hcp : calcPercentage 46 46 = 100 := by
    unfold calcPercentage
    rw [if_neg (by norm_num)]
    rw [show ((46 : ℤ) : ℚ) / ((46 : ℤ) : ℚ) * 100 = ((100 : ℤ) : ℚ) from by norm_num]
    exact halfEvenZ_intCast 100
  have : coerceDuelCount (some (PyVal.int 58)) - coerceDuelCount (some (PyVal.int 12))
      = (46 : ℤ) := by decide
  rw [show (coerceDuelCount (some (PyVal.int 58)) - coerceDuelCount (some (PyVal.int 12)))
      = (46 : ℤ) from by decide]
  rw [show ((coerceDuelCount (some (PyVal.int 58)) + coerceDuelCount Option.none)
      - (coerceDuelCount (some (PyVal.int 12)) + coerceDuelCount Option.none))
      = (46 : ℤ) from by decide]
  rw [hcp]
  decide

/-! ## Claim C4: absent or `'N/A'` stat values -/

/-- C4 (amended): in `_convert_stats_to_numeric`, every non-passthrough
entry whose value is falsy (`None`, `''`, `0`, …) or the string `'N/A'` is
set to the integer `0` in the final record — including rating/xG-like float
fields, which therefore end up `0`, not null. -/
theorem claim_C4_na_becomes_zero :
    (∀ (k : List Char) (v : PyVal), ¬(k ∈ skipKeys) →
      (pyFalsy v = true ∨ v = PyVal.str (strL "N/A")) →
      convEntry k v = (k, PyVal.int 0)) ∧
    (∀ (entries : List (List Char × PyVal)) (k : List Char) (v : PyVal),
      (k, v) ∈ entries → ¬(k ∈ skipKeys) →
      (pyFalsy v = true ∨ v = PyVal.str (strL "N/A")) →
      (k, PyVal.int 0) ∈ convertStatsToNumeric entries) := by
  have hbase : ∀ (k : List Char) (v : PyVal), ¬(k ∈ skipKeys) →
      (pyFalsy v = true ∨ v = PyVal.str (strL "N/A")) →
      convEntry k v = (k, PyVal.int 0) := by
    intro k v h1 h2
    unfold convEntry
    rw [if_neg h1, if_pos h2]
  refine ⟨hbase, ?_⟩
  intro entries k v hmem h1 h2
  unfold convertStatsToNumeric
  have : (k, PyVal.int 0) = (fun kv : List Char × PyVal => convEntry kv.1 kv.2) (k, v) := by
    rw [show (fun kv : List Char × PyVal => convEntry kv.1 kv.2) (k, v)
        = convEntry k v from rfl, hbase k v h1 h2]
  rw [this]
  exact List.mem_map_of_mem _ hmem

/-- Witness for C4: the `Rating` field with source value `'N/A'` becomes
`0` in the converted record. -/
theorem claim_C4_witness :
    (strL "Rating", PyVal.int 0)
      ∈ convertStatsToNumeric [(strL "Rating", PyVal.str (strL "N/A"))] := by
  have h := claim_C4_na_becomes_zero
  exact h.2 [(strL "Rating", PyVal.str (strL "N/A"))] (strL "Rating")
    (PyVal.str (strL "N/A")) (by decide) (by decide) (Or.inr rfl)

/-- Counterexample to C4 as stated: the unreported (`'N/A'`) rating is `0`
in the final record, not null. -/
theorem claim_C4_counterexample :
    convertStatsToNumeric [(strL "Rating", PyVal.str (strL "N/A"))]
      = [(strL "Rating", PyVal.int 0)] ∧
    PyVal.int 0 ≠ PyVal.none := by
  constructor
  · decide
  · decide

/-! ## Claim C5: team average rating -/

theorem collectPositiveRatings_eq (vals : List PyVal) :
    collectPositiveRatings vals
      = ((vals.map ratingNum).filterMap id).filter (fun q => decide (0 < q)) := by
  induction vals with
  | nil => rfl
  | cons v t ih =>
    simp only [collectPositiveRatings, List.filterMap_cons, List.map_cons] at *
    cases hr : ratingNum v with
    | none => simp [hr, ih]
    | some q =>
      by_cases hq : 0 < q
      · simp [hr, hq, ih, List.filter_cons]
      · simp [hr, hq, ih, List.filter_cons]

/-- C5: the team average rating computed by the player loop is the
arithmetic mean, rounded to 2 decimals, over exactly the player ratings
strictly greater than 0 (zero and null excluded from numerator and
denominator), and null when no rating is positive; on ratings
`[7.2, 6.8, 0]` plus one null it is `7.00`. -/
theorem claim_C5_average_rating :
    (∀ vals : List PyVal,
      teamAverageRating vals = specAverageRating (vals.map ratingNum)) ∧
    teamAverageRating
      [PyVal.float (72 / 10), PyVal.float (68 / 10), PyVal.float 0, PyVal.none]
      = some 7 := by
  constructor
  · intro vals
    unfold teamAverageRating specAverageRating
    rw [collectPositiveRatings_eq]
  · have hlist : collectPositiveRatings
        [PyVal.float (72 / 10), PyVal.float (68 / 10), PyVal.float 0, PyVal.none]
        = [72 / 10, 68 / 10] := by
      unfold collectPositiveRatings
      simp only [List.filterMap_cons, ratingNum]
      rw [if_pos (by norm_num), if_pos (by norm_num), if_neg (by norm_num)]
      rfl
    unfold teamAverageRating
    rw [hlist]
    rw [if_neg (by decide)]
    have hsum : (([72 / 10, 68 / 10] : List ℚ).sum
        / (([72 / 10, 68 / 10] : List ℚ).length : ℚ)) = 7 := by
      simp [List.sum_cons]
      norm_num
    rw [hsum]
    have : ((7 : ℚ)) * (10 : ℚ) ^ 2 = ((700 : ℤ) : ℚ) := by norm_num
    rw [pyRound, this, halfEvenZ_intCast]
    norm_num


/-! ## Claim C9: goal incidents -/

/-- C9: for a goal incident (with minute and side present), the base event
row is first in the emitted insert trace — it exists, with its `event_id`,
before any goal sub-insert; with a resolvable scoring player the goal
sub-record referencing that `event_id` follows; with no resolvable scorer
the trace holds the base event only and the incident is flagged as a
failure (`success = false`), not silently dropped. -/
theorem claim_C9_goal_base_before_sub (matchId homeTeamId awayTeamId : ℤ)
    (inc : Incident) (eventId m : ℤ) (h : Bool)
    (hty : inc.incidentType = some (strL "goal"))
    (hm : inc.time = some m)
    (hh : inc.isHome = some h) :
    (processIncident matchId homeTeamId awayTeamId inc eventId).1.head?
      = some (DBRow.base matchId m (some (strL "goal"))
          (if h then homeTeamId else awayTeamId) (basePlayerId inc)) ∧
    (truthyId (refId inc.player) = Option.none →
      processIncident matchId homeTeamId awayTeamId inc eventId
        = ([DBRow.base matchId m (some (strL "goal"))
            (if h then homeTeamId else awayTeamId) (basePlayerId inc)], false)) ∧
    (∀ s : ℤ, truthyId (refId inc.player) = some s →
      processIncident matchId homeTeamId awayTeamId inc eventId
        = ([DBRow.base matchId m (some (strL "goal"))
              (if h then homeTeamId else awayTeamId) (basePlayerId inc),
            DBRow.goalRow eventId s (refId inc.assist1) inc.goalType
              (findBodyPart inc.actions)], true)) := by
  unfold processIncident
  rw [hty, hm, hh]
  rw [if_neg (by rintro (hc | hc) <;> exact absurd hc (by decide))]
  rw [if_neg (by rintro ⟨hc, _⟩; exact absurd hc (by decide))]
  simp only [if_true]
  rcases hx : truthyId (refId inc.player) with _ | s
  · exact ⟨rfl, fun _ => rfl, fun s hs => Option.noConfusion hs⟩
  · refine ⟨rfl, fun hnone => Option.noConfusion hnone, ?_⟩
    intro s2 hs2
    rw [Option.some.injEq] at hs2
    rw [hs2]

/-- Witness for C9: a concrete goal incident with no scoring player yields
the base event plus a failure flag and no goal sub-record. -/
theorem claim_C9_witness :
    processIncident 9 1 2
      { incidentType := some (strL "goal"), time := some 23,
        isHome := some true, player := Option.none, playerIn := Option.none,
        playerOut := Option.none, assist1 := Option.none, manager := false,
        incidentClass := Option.none, reason := Option.none,
        goalType := some (strL "regular"), rescinded := false, actions := [] }
      77
      = ([DBRow.base 9 23 (some (strL "goal")) 1 Option.none], false) := by
  have h := claim_C9_goal_base_before_sub 9 1 2
    { incidentType := some (strL "goal"), time := some 23,
      isHome := some true, player := Option.none, playerIn := Option.none,
      playerOut := Option.none, assist1 := Option.none, manager := false,
      incidentClass := Option.none, reason := Option.none,
      goalType := some (strL "regular"), rescinded := false, actions := [] }
    77 23 true rfl rfl rfl
  have h2 := h.2.1 rfl
  rw [h2]
  rfl


/-! ## Claims C10 and C6: shape and defaults of the team stat rows -/

theorem buildRow_length (matchId teamId : ℤ) (isHome : Bool)
    (pcode : List Char) (stats : StatMap) :
    (buildRow matchId teamId isHome pcode stats).length = 56 := by
  simp only [buildRow, List.length_map]
  decide

theorem rowChecked_of_valid {row : List PyVal} (h : row.length = 56) :
    rowChecked row = [row] := by
  unfold rowChecked
  rw [if_pos h]

/-- C10: for every input statistics list, `_parse_statistics_data` returns
exactly 6 row tuples — one per (side, period) over {home, away} ×
{ALL, 1ST, 2ND} — and every tuple has exactly 56 cells in
`TEAM_STATS_DB_ORDER`; the length-mismatch rejection branch never fires. -/
theorem claim_C10_six_rows_of_56 (stats : List PeriodStats)
    (matchId homeTeamId awayTeamId : ℤ) :
    (parseStatisticsData stats matchId homeTeamId awayTeamId).length = 6 ∧
    (parseStatisticsData stats matchId homeTeamId awayTeamId).all
      (fun r => r.length == 56) = true := by
  have hrc : ∀ (a b : ℤ) (ih : Bool) (pc : List Char) (st : StatMap),
      rowChecked (buildRow a b ih pc st) = [buildRow a b ih pc st] :=
    fun a b ih pc st => rowChecked_of_valid (buildRow_length a b ih pc st)
  unfold parseStatisticsData
  simp only [hrc]
  constructor
  · simp
  · simp [buildRow_length]

/-- C6, evaluated at the failing input (a statistics payload containing no
items): `big_chances` and `yellow_cards` (counters matched by the name
heuristic) default to `0`, but the counters `total_shots` (cell 9),
`hit_woodwork` (23), `blocked_shots` (25) and `fouled_final_third` (29)
default to null in every emitted row, contradicting the claim (and the
source's own comment) that every missing counter defaults to 0;
`passes_percentage` (15) is a ratio column and is null as claimed. -/
theorem claim_C6_counters_left_null :
    (parseStatisticsData [] 7 1 2).all
      (fun r => (r.get? 8 == some (PyVal.int 0)) &&
                (r.get? 20 == some (PyVal.int 0)) &&
                (r.get? 9 == some PyVal.none) &&
                (r.get? 23 == some PyVal.none) &&
                (r.get? 25 == some PyVal.none) &&
                (r.get? 29 == some PyVal.none) &&
                (r.get? 15 == some PyVal.none)) = true := by
  decide


end FPL

